import Mathlib

set_option maxRecDepth 20000

/-!
Verification development for the IAS15 integrator core of this repository
(files `integrator_ias15.c` and `input.c`).

Shallow embedding conventions:

* C `double` values are modelled as exact rationals (`ℚ`).  The claims settled
  here concern control flow, bookkeeping and exact identities, not rounding;
  where a concrete scenario is evaluated, every C floating point operation
  involved is exact, so the rational model agrees with the machine run.
* `isnormal` on a `double` is modelled as "nonzero": in the rational model no
  NaN, infinity or subnormal can arise, and every nonzero value reached in the
  modelled scenarios is a normal number.  The one place where an infinity can
  arise in C (a division by a zero acceleration in the step controller) is
  modelled explicitly with an `Option ℚ` accumulator (`none` standing for the
  infinite maximum).
* The external force evaluation (`gravity_calculate_acceleration` plus the
  optional `problem_additional_forces` hook, both outside this core) is an
  oracle parameter: an arbitrary function from the particle store to
  acceleration triples.
* The step controller applies `floor(log(dtparticle/integrator_max_dt)/log(8.))`
  to a `double`; the transcendental `pow`/`log`/`floor` combination has no
  exact executable counterpart, so the resulting (pre-clamp) integer is an
  oracle parameter `lg` of the step function.  All claims about the controller
  quantify over this oracle.
* The flat `3N` buffers `x0,v0,a0,at,csx,csv,b[7],g[7],e[7],br[7],er[7]` of the
  C code are entry-aligned with the particle array (indices `3i,3i+1,3i+2`
  belong to particle `i`); the embedding stores the three components of each
  buffer slice in a per-particle, per-axis record `Blk`.
* The particle store is modelled as a function `ℕ → Particle` together with the
  particle count `N`; loops `for(i=0;i<N;i++)` become `mapN` updates that only
  touch indices `< N`.
-/

/-- Gauss Radau spacings, the `h[9]` table of the source. -/
def h : ℕ → ℚ
  | 0 => 0
  | 1 => 0.0562625605369221464656521910
  | 2 => 0.1802406917368923649875799428
  | 3 => 0.3526247171131696373739077702
  | 4 => 0.5471536263305553830014485577
  | 5 => 0.7342101772154105410531523211
  | 6 => 0.8853209468390957680903597629
  | 7 => 0.9775206135612875018911745004
  | 8 => 1
  | _ => 0

/-- The `r[28]` table of the source (pairwise node differences). -/
def r : ℕ → ℚ
  | 0 => 0.0562625605369221464656522
  | 1 => 0.1802406917368923649875799
  | 2 => 0.1239781311999702185219278
  | 3 => 0.3526247171131696373739078
  | 4 => 0.2963621565762474909082556
  | 5 => 0.1723840253762772723863278
  | 6 => 0.5471536263305553830014486
  | 7 => 0.4908910657936332365357964
  | 8 => 0.3669129345936630180138686
  | 9 => 0.1945289092173857456275408
  | 10 => 0.7342101772154105410531523
  | 11 => 0.6779476166784883945875001
  | 12 => 0.5539694854785181760655724
  | 13 => 0.3815854601022409036792446
  | 14 => 0.1870565508848551580517038
  | 15 => 0.8853209468390957680903598
  | 16 => 0.8290583863021736216247076
  | 17 => 0.7050802551022034031027798
  | 18 => 0.5326962297259261307164520
  | 19 => 0.3381673205085403850889112
  | 20 => 0.1511107696236852270372074
  | 21 => 0.9775206135612875018911745
  | 22 => 0.9212580530243653554255223
  | 23 => 0.7972799218243951369035946
  | 24 => 0.6248958964481178645172667
  | 25 => 0.4303669872307321188897259
  | 26 => 0.2433104363458769608380222
  | 27 => 0.0921996667221917338008147
  | _ => 0

/-- The `c[21]` table of the source (g-to-b conversion coefficients). -/
def c : ℕ → ℚ
  | 0 => -0.0562625605369221464656522
  | 1 => 0.0101408028300636299864818
  | 2 => -0.2365032522738145114532321
  | 3 => -0.0035758977292516175949345
  | 4 => 0.0935376952594620658957485
  | 5 => -0.5891279693869841488271399
  | 6 => 0.0019565654099472210769006
  | 7 => -0.0547553868890686864408084
  | 8 => 0.4158812000823068616886219
  | 9 => -1.1362815957175395318285885
  | 10 => -0.0014365302363708915610919
  | 11 => 0.0421585277212687082291130
  | 12 => -0.3600995965020568162530901
  | 13 => 1.2501507118406910366792415
  | 14 => -1.8704917729329500728817408
  | 15 => 0.0012717903090268677658020
  | 16 => -0.0387603579159067708505249
  | 17 => 0.3609622434528459872559689
  | 18 => -1.4668842084004269779203515
  | 19 => 2.9061362593084293206895457
  | 20 => -2.7558127197720458409721005
  | _ => 0

/-- The `d[21]` table of the source (b-to-g conversion coefficients). -/
def d : ℕ → ℚ
  | 0 => 0.0562625605369221464656522
  | 1 => 0.0031654757181708292499905
  | 2 => 0.2365032522738145114532321
  | 3 => 0.0001780977692217433881125
  | 4 => 0.0457929855060279188954539
  | 5 => 0.5891279693869841488271399
  | 6 => 0.0000100202365223291272096
  | 7 => 0.0084318571535257015445000
  | 8 => 0.2535340690545692665214616
  | 9 => 1.1362815957175395318285885
  | 10 => 0.0000005637641639318207610
  | 11 => 0.0015297840025004658189490
  | 12 => 0.0978342365324440053653648
  | 13 => 0.8752546646840910912297246
  | 14 => 1.8704917729329500728817408
  | 15 => 0.0000000317188154017613665
  | 16 => 0.0002762930909826476593130
  | 17 => 0.0360285539837364596003871
  | 18 => 0.5767330002770787313544596
  | 19 => 2.2485887607691598182153473
  | 20 => 2.7558127197720458409721005
  | _ => 0

/-- `isnormal` applied to a modelled `double`: in the rational model the only
non-normal value that can be stored is zero (NaN and infinities cannot be
represented, and the modelled scenarios stay far from the subnormal range). -/
def isnormalQ (q : ℚ) : Bool := q != 0

/-- `isnormal` applied (line 541 of the source) to the `int` field `dtexp`
after implicit conversion to `double`: every nonzero small integer converts to
a normal double, zero converts to `0.0` which is not normal. -/
def isnormalZ (z : ℤ) : Bool := z != 0

/-- One scalar component (one index `k` of the flat `3N` arrays) of the
integrator scratch state attached to a particle: the slices of
`x0,v0,a0,at,csx,csv` and of the seven-entry coefficient arrays
`b,g,e,br,er`.  The field `att` models the array `at` (a Lean keyword). -/
structure Blk where
  x0 : ℚ := 0
  v0 : ℚ := 0
  a0 : ℚ := 0
  att : ℚ := 0
  csx : ℚ := 0
  csv : ℚ := 0
  b0 : ℚ := 0
  b1 : ℚ := 0
  b2 : ℚ := 0
  b3 : ℚ := 0
  b4 : ℚ := 0
  b5 : ℚ := 0
  b6 : ℚ := 0
  g0 : ℚ := 0
  g1 : ℚ := 0
  g2 : ℚ := 0
  g3 : ℚ := 0
  g4 : ℚ := 0
  g5 : ℚ := 0
  g6 : ℚ := 0
  e0 : ℚ := 0
  e1 : ℚ := 0
  e2 : ℚ := 0
  e3 : ℚ := 0
  e4 : ℚ := 0
  e5 : ℚ := 0
  e6 : ℚ := 0
  br0 : ℚ := 0
  br1 : ℚ := 0
  br2 : ℚ := 0
  br3 : ℚ := 0
  br4 : ℚ := 0
  br5 : ℚ := 0
  br6 : ℚ := 0
  er0 : ℚ := 0
  er1 : ℚ := 0
  er2 : ℚ := 0
  er3 : ℚ := 0
  er4 : ℚ := 0
  er5 : ℚ := 0
  er6 : ℚ := 0

/-- A particle record (`struct particle`) together with the three axis slices
of the integrator scratch buffers that are entry-aligned with it (`cX`, `cY`,
`cZ` for the components `3i`, `3i+1`, `3i+2`).  The past-position caches
`xpast`, `ypast`, `zpast` are total tables indexed by sub-level and sub-index. -/
structure Particle where
  x : ℚ := 0
  y : ℚ := 0
  z : ℚ := 0
  vx : ℚ := 0
  vy : ℚ := 0
  vz : ℚ := 0
  ax : ℚ := 0
  ay : ℚ := 0
  az : ℚ := 0
  tdone : ℚ := 0
  dtdone : ℚ := 0
  dtexp : ℤ := 0
  xpast : ℕ → ℕ → ℚ := fun _ _ => 0
  ypast : ℕ → ℕ → ℚ := fun _ _ => 0
  zpast : ℕ → ℕ → ℚ := fun _ _ => 0
  cX : Blk := {}
  cY : Blk := {}
  cZ : Blk := {}

/-- Whole-simulation state visible to `integrator_ias15_step`: the global
simulation time `t`, the tunables, the iteration-overflow counter, the global
sub-step bookkeeping (`dtexp`, `dtexp_substep`, `dtexp_min`) and the particle
store. -/
structure IState where
  n : ℕ := 0
  t : ℚ := 0
  integrator_epsilon : ℚ := 0.00001
  integrator_min_dt : ℚ := 0
  integrator_max_dt : ℚ := 0
  integrator_force_is_velocitydependent : Bool := true
  problem_additional_forces : Bool := false
  integrator_iterations_max_exceeded : ℕ := 0
  dtexp : ℤ := 0
  dtexp_substep : ℕ → ℕ := fun _ => 0
  dtexp_min : ℤ := 0
  particles : ℕ → Particle := fun _ => {}

/-- The external acceleration evaluator (`integrator_update_acceleration`,
i.e. the gravity kernel plus the optional additional-forces hook): given the
particle count and the particle store, it yields the acceleration triple it
writes into each particle. -/
def Force : Type := ℕ → (ℕ → Particle) → ℕ → ℚ × ℚ × ℚ

/-- Oracle for the transcendental expression
`floor(log(pow(integrator_epsilon/errork_max,1./7.)*dt/integrator_max_dt)/log(8.))`
of the step controller, as a function of `errork_max` and `dt` (the remaining
inputs are ambient tunables).  The controller clamps its value. -/
def LgOracle : Type := ℚ → ℚ → ℤ

/-- Apply a per-particle update to the indices `0 ≤ i < n` of a particle store,
the embedding of a `for(i=0;i<N;i++)` loop over the particle array. -/
def mapN (n : ℕ) (f : ℕ → Particle → Particle) (ps : ℕ → Particle) : ℕ → Particle :=
  fun i => if i < n then f i (ps i) else ps i

/-- The time step tried by the current call (lines 165-170 of the source):
`dt = integrator_max_dt` scaled by the widths of the Gauss Radau sub-intervals
recorded in `dtexp_substep` for every level above the current class `de`. -/
def dtProduct (maxdt : ℚ) (de : ℤ) (sub : ℕ → ℕ) : ℚ :=
  (List.range (-de).toNat).foldl (fun acc i => acc * (h (sub i + 1) - h (sub i))) maxdt

/-- `dt` as computed at the top of `integrator_ias15_step`. -/
def dtAtEntry (st : IState) : ℚ :=
  dtProduct st.integrator_max_dt st.dtexp st.dtexp_substep

/-- Warm start of one scalar component (lines 180-212 of the source), taken
when `isnormal(dtdone)` holds: the `e` coefficients are set to the polynomial
extrapolation of `br` in powers of `q1 = dt/dtdone` with the fixed integer
weights, and the `b` coefficients are set to `0.` (the BD correction
`e + (br - er)` is commented out in the source, under a `#warning TODO`). -/
def warmStartBlk (q1 : ℚ) (bl : Blk) : Blk :=
  let q2 := q1 * q1
  let q3 := q1 * q2
  let q4 := q2 * q2
  let q5 := q2 * q3
  let q6 := q3 * q3
  let q7 := q3 * q4
  { bl with
    e0 := q1 * (bl.br6 * 7 + bl.br5 * 6 + bl.br4 * 5 + bl.br3 * 4 + bl.br2 * 3 + bl.br1 * 2 + bl.br0)
    e1 := q2 * (bl.br6 * 21 + bl.br5 * 15 + bl.br4 * 10 + bl.br3 * 6 + bl.br2 * 3 + bl.br1)
    e2 := q3 * (bl.br6 * 35 + bl.br5 * 20 + bl.br4 * 10 + bl.br3 * 4 + bl.br2)
    e3 := q4 * (bl.br6 * 35 + bl.br5 * 15 + bl.br4 * 5 + bl.br3)
    e4 := q5 * (bl.br6 * 21 + bl.br5 * 6 + bl.br4)
    e5 := q6 * (bl.br6 * 7 + bl.br5)
    e6 := q7 * bl.br6
    b0 := 0
    b1 := 0
    b2 := 0
    b3 := 0
    b4 := 0
    b5 := 0
    b6 := 0 }

/-- Warm start of one scalar component in the `else` branch (lines 213-230):
without a previous successful step both `e` and `b` are zeroed. -/
def coldStartBlk (bl : Blk) : Blk :=
  { bl with
    e0 := 0, e1 := 0, e2 := 0, e3 := 0, e4 := 0, e5 := 0, e6 := 0
    b0 := 0, b1 := 0, b2 := 0, b3 := 0, b4 := 0, b5 := 0, b6 := 0 }

/-- Warm start of a whole particle (the body of the `for(k=0;k<N3;++k)` loop
at lines 177-231, which tests `isnormal(particles[k/3].dtdone)` per particle). -/
def warmStartP (dtq : ℚ) (p : Particle) : Particle :=
  if isnormalQ p.dtdone then
    let q1 := dtq / p.dtdone
    { p with cX := warmStartBlk q1 p.cX, cY := warmStartBlk q1 p.cY, cZ := warmStartBlk q1 p.cZ }
  else
    { p with cX := coldStartBlk p.cX, cY := coldStartBlk p.cY, cZ := coldStartBlk p.cZ }

/-- Capture of the step-entry state into `x0`, `v0`, `a0` (lines 234-244). -/
def captureP (p : Particle) : Particle :=
  { p with
    cX := { p.cX with x0 := p.x, v0 := p.vx, a0 := p.ax }
    cY := { p.cY with x0 := p.y, v0 := p.vy, a0 := p.ay }
    cZ := { p.cZ with x0 := p.z, v0 := p.vz, a0 := p.az } }

/-- Initial `g` from `b` via the `d` table, one scalar component
(lines 246-254). -/
def initGBlk (bl : Blk) : Blk :=
  { bl with
    g0 := bl.b6 * d 15 + bl.b5 * d 10 + bl.b4 * d 6 + bl.b3 * d 3 + bl.b2 * d 1 + bl.b1 * d 0 + bl.b0
    g1 := bl.b6 * d 16 + bl.b5 * d 11 + bl.b4 * d 7 + bl.b3 * d 4 + bl.b2 * d 2 + bl.b1
    g2 := bl.b6 * d 17 + bl.b5 * d 12 + bl.b4 * d 8 + bl.b3 * d 5 + bl.b2
    g3 := bl.b6 * d 18 + bl.b5 * d 13 + bl.b4 * d 9 + bl.b3
    g4 := bl.b6 * d 19 + bl.b5 * d 14 + bl.b4
    g5 := bl.b6 * d 20 + bl.b5
    g6 := bl.b6 }

/-- Initial `g` from `b` for a whole particle. -/
def initGP (p : Particle) : Particle :=
  { p with cX := initGBlk p.cX, cY := initGBlk p.cY, cZ := initGBlk p.cZ }

/-- Ambient data of one predictor-corrector pass: particle count, the step
length `dt`, the global time `t`, the global class `dtexp`, whether the
velocity-prediction block is active (`problem_additional_forces` set and
`integrator_force_is_velocitydependent` nonzero), and the force oracle. -/
structure Ctx where
  n : ℕ
  dtq : ℚ
  t : ℚ
  dtexpG : ℤ
  velDep : Bool
  force : Force

/-- Predicted position of one scalar component at node `n` (lines 292-312):
`csx + (s8 b6 + s7 b5 + s6 b4 + s5 b3 + s4 b2 + s3 b1 + s2 b0 + s1 a0 + s0 v0) + x0`
where the `s` weights are built from `hn = h[n] + (t - tdone)/dt`. -/
def posNode (dtq hn : ℚ) (bl : Blk) : ℚ :=
  let s0 := dtq * hn
  let s1 := s0 * s0 / 2
  let s2 := s1 * hn / 3
  let s3 := s2 * hn / 2
  let s4 := 3 * s3 * hn / 5
  let s5 := 2 * s4 * hn / 3
  let s6 := 5 * s5 * hn / 7
  let s7 := 3 * s6 * hn / 4
  let s8 := 7 * s7 * hn / 9
  (bl.csx + (s8 * bl.b6 + s7 * bl.b5 + s6 * bl.b4 + s5 * bl.b3 + s4 * bl.b2 +
    s3 * bl.b1 + s2 * bl.b0 + s1 * bl.a0 + s0 * bl.v0)) + bl.x0

/-- Position prediction for one particle at node `n` (lines 286-314): particles
of a class finer than the current one are read from their past-position cache
at `[-dtexp+1][n]`; the others get the polynomial prediction. -/
def predictPosP (cx : Ctx) (nd : ℕ) (p : Particle) : Particle :=
  if p.dtexp < cx.dtexpG then
    { p with
      x := p.xpast (-cx.dtexpG + 1).toNat nd
      y := p.ypast (-cx.dtexpG + 1).toNat nd
      z := p.zpast (-cx.dtexpG + 1).toNat nd }
  else
    let hn := h nd + (cx.t - p.tdone) / cx.dtq
    { p with
      x := posNode cx.dtq hn p.cX
      y := posNode cx.dtq hn p.cY
      z := posNode cx.dtq hn p.cZ }

/-- Predicted velocity of one scalar component at node `n` (lines 318-338):
`csv + s7 b6 + s6 b5 + s5 b4 + s4 b3 + s3 b2 + s2 b1 + s1 b0 + s0 a0 + v0`
where these `s` weights are built from `h[n]` itself (not the shifted `hn`). -/
def velNode (dtq : ℚ) (nd : ℕ) (bl : Blk) : ℚ :=
  let hv := h nd
  let s0 := dtq * hv
  let s1 := s0 * hv / 2
  let s2 := 2 * s1 * hv / 3
  let s3 := 3 * s2 * hv / 4
  let s4 := 4 * s3 * hv / 5
  let s5 := 5 * s4 * hv / 6
  let s6 := 6 * s5 * hv / 7
  let s7 := 7 * s6 * hv / 8
  (bl.csv + s7 * bl.b6 + s6 * bl.b5 + s5 * bl.b4 + s4 * bl.b3 + s3 * bl.b2 +
    s2 * bl.b1 + s1 * bl.b0 + s0 * bl.a0) + bl.v0

/-- Velocity prediction for one particle at node `n` (lines 327-338); the loop
in the source has no class filter, every particle is overwritten. -/
def predictVelP (cx : Ctx) (nd : ℕ) (p : Particle) : Particle :=
  { p with
    vx := velNode cx.dtq nd p.cX
    vy := velNode cx.dtq nd p.cY
    vz := velNode cx.dtq nd p.cZ }

/-- Write the acceleration triple produced by the force oracle into a particle
(the effect of `integrator_update_acceleration`, line 342). -/
def setAcc (p : Particle) (a : ℚ × ℚ × ℚ) : Particle :=
  { p with ax := a.1, ay := a.2.1, az := a.2.2 }

/-- Copy the fresh accelerations of an in-class particle into the `at` buffer
(lines 344-349). -/
def copyAtP (p : Particle) : Particle :=
  { p with
    cX := { p.cX with att := p.ax }
    cY := { p.cY with att := p.ay }
    cZ := { p.cZ with att := p.az } }

/-- The `switch (n)` corrector update of one scalar component
(lines 350-445): update `g[n-1]` from `at - a0` with the Newton
divided-difference schedule over `r`, and propagate the change into
`b[0..n-1]` with the `c` weights.  Returns the updated component together with
the change `tmp` applied to the top coefficient (at `n = 7` this is the
`b6ktmp` monitored for convergence). -/
def nodeUpdBlk (nd : ℕ) (bl : Blk) : Blk × ℚ :=
  match nd with
  | 1 =>
    let tmp := bl.g0
    let g0n := (bl.att - bl.a0) / r 0
    ({ bl with g0 := g0n, b0 := bl.b0 + (g0n - tmp) }, g0n - tmp)
  | 2 =>
    let tmp := bl.g1
    let gk := bl.att - bl.a0
    let g1n := (gk / r 1 - bl.g0) / r 2
    let tm2 := g1n - tmp
    ({ bl with g1 := g1n, b0 := bl.b0 + tm2 * c 0, b1 := bl.b1 + tm2 }, tm2)
  | 3 =>
    let tmp := bl.g2
    let gk := bl.att - bl.a0
    let g2n := ((gk / r 3 - bl.g0) / r 4 - bl.g1) / r 5
    let tm2 := g2n - tmp
    ({ bl with
       g2 := g2n
       b0 := bl.b0 + tm2 * c 1
       b1 := bl.b1 + tm2 * c 2
       b2 := bl.b2 + tm2 }, tm2)
  | 4 =>
    let tmp := bl.g3
    let gk := bl.att - bl.a0
    let g3n := (((gk / r 6 - bl.g0) / r 7 - bl.g1) / r 8 - bl.g2) / r 9
    let tm2 := g3n - tmp
    ({ bl with
       g3 := g3n
       b0 := bl.b0 + tm2 * c 3
       b1 := bl.b1 + tm2 * c 4
       b2 := bl.b2 + tm2 * c 5
       b3 := bl.b3 + tm2 }, tm2)
  | 5 =>
    let tmp := bl.g4
    let gk := bl.att - bl.a0
    let g4n := ((((gk / r 10 - bl.g0) / r 11 - bl.g1) / r 12 - bl.g2) / r 13 - bl.g3) / r 14
    let tm2 := g4n - tmp
    ({ bl with
       g4 := g4n
       b0 := bl.b0 + tm2 * c 6
       b1 := bl.b1 + tm2 * c 7
       b2 := bl.b2 + tm2 * c 8
       b3 := bl.b3 + tm2 * c 9
       b4 := bl.b4 + tm2 }, tm2)
  | 6 =>
    let tmp := bl.g5
    let gk := bl.att - bl.a0
    let g5n := (((((gk / r 15 - bl.g0) / r 16 - bl.g1) / r 17 - bl.g2) / r 18 - bl.g3) / r 19 - bl.g4) / r 20
    let tm2 := g5n - tmp
    ({ bl with
       g5 := g5n
       b0 := bl.b0 + tm2 * c 10
       b1 := bl.b1 + tm2 * c 11
       b2 := bl.b2 + tm2 * c 12
       b3 := bl.b3 + tm2 * c 13
       b4 := bl.b4 + tm2 * c 14
       b5 := bl.b5 + tm2 }, tm2)
  | 7 =>
    let tmp := bl.g6
    let gk := bl.att - bl.a0
    let g6n := ((((((gk / r 21 - bl.g0) / r 22 - bl.g1) / r 23 - bl.g2) / r 24 - bl.g3) / r 25 - bl.g4) / r 26 - bl.g5) / r 27
    let tm2 := g6n - tmp
    ({ bl with
       g6 := g6n
       b0 := bl.b0 + tm2 * c 15
       b1 := bl.b1 + tm2 * c 16
       b2 := bl.b2 + tm2 * c 17
       b3 := bl.b3 + tm2 * c 18
       b4 := bl.b4 + tm2 * c 19
       b5 := bl.b5 + tm2 * c 20
       b6 := bl.b6 + tm2 }, tm2)
  | _ => (bl, 0)

/-- Corrector update of a whole in-class particle. -/
def nodeUpdP (nd : ℕ) (p : Particle) : Particle :=
  { p with
    cX := (nodeUpdBlk nd p.cX).1
    cY := (nodeUpdBlk nd p.cY).1
    cZ := (nodeUpdBlk nd p.cZ).1 }

/-- One convergence-metric accumulation (lines 434-440): the candidate is
`errork = fabs(b6ktmp/ak)`; it replaces the running value only when it is a
normal number and strictly larger.  `b6ktmp = 0` gives `errork = 0` (not
normal); `ak = 0` gives an infinity or NaN (not normal); all are skipped. -/
def pceStep (b6ktmp ak pce : ℚ) : ℚ :=
  if b6ktmp ≠ 0 ∧ ak ≠ 0 ∧ |b6ktmp / ak| > pce then |b6ktmp / ak| else pce

/-- Convergence-metric contribution of one in-class particle at node 7, in the
source component order `3i`, then `3i+1`, then `3i+2` (the metric uses the
`at` values and the per-component changes `b6ktmp`). -/
def pceParticleOrdered (p : Particle) (pce : ℚ) : ℚ :=
  pceStep (nodeUpdBlk 7 p.cZ).2 p.cZ.att
    (pceStep (nodeUpdBlk 7 p.cY).2 p.cY.att
      (pceStep (nodeUpdBlk 7 p.cX).2 p.cX.att pce))

/-- One pass over node `nd` inside a predictor-corrector iteration
(lines 283-446): predict positions, optionally predict velocities, evaluate
the force oracle, copy in-class accelerations into `at`, run the corrector
update on in-class particles and, at node 7, accumulate the convergence
metric. -/
def nodePass (cx : Ctx) (nd : ℕ) (s : (ℕ → Particle) × ℚ) : (ℕ → Particle) × ℚ :=
  let ps1 := mapN cx.n (fun _ p => predictPosP cx nd p) s.1
  let ps2 := if cx.velDep then mapN cx.n (fun _ p => predictVelP cx nd p) ps1 else ps1
  let acc := cx.force cx.n ps2
  let ps3 := mapN cx.n (fun i p => setAcc p (acc i)) ps2
  let ps4 := mapN cx.n (fun _ p => if p.dtexp = cx.dtexpG then copyAtP p else p) ps3
  let ps5 := mapN cx.n (fun _ p => if p.dtexp = cx.dtexpG then nodeUpdP nd p else p) ps4
  let pce :=
    if nd = 7 then
      (List.range cx.n).foldl
        (fun acc2 i => if (ps4 i).dtexp = cx.dtexpG then pceParticleOrdered (ps4 i) acc2 else acc2)
        s.2
    else s.2
  (ps5, pce)

/-- One full predictor-corrector iteration: the seven nodes in order, with the
convergence metric reset to `0` at iteration entry (lines 280-283). -/
def iterBody (cx : Ctx) (ps : ℕ → Particle) : (ℕ → Particle) × ℚ :=
  List.foldl (fun s nd => nodePass cx nd s) (ps, 0) [1, 2, 3, 4, 5, 6, 7]

/-- The convergence threshold, the literal `1e-16` of line 265. -/
def convergedBound : ℚ := 1 / 10 ^ 16

/-- The predictor-corrector loop (lines 256-281 and 447).  The `while(1)`
exits when the metric drops below `1e-16`, when after more than 2 completed
iterations the metric fails to decrease, or once 12 iterations have elapsed
(the third component of the result records an exit through the
12-iteration branch).  The loop is expressed with fuel; 13 units are always
sufficient because the guard stops at 12 iterations, which is proved below. -/
def pcRun (body : (ℕ → Particle) → (ℕ → Particle) × ℚ) :
    ℕ → ℚ → ℚ → ℕ → (ℕ → Particle) → ℕ × ((ℕ → Particle) × Bool)
  | 0, _, _, iters, ps => (iters, ps, false)
  | fuel + 1, pce, pceLast, iters, ps =>
    if pce < convergedBound then (iters, ps, false)
    else if 2 < iters ∧ pceLast ≤ pce then (iters, ps, false)
    else if 12 ≤ iters then (iters, ps, true)
    else
      let s := body ps
      pcRun body fuel s.2 pce (iters + 1) s.1

/-- Commit of one scalar component of an in-class particle (lines 453-484):
the Kahan-compensated position and velocity accumulation into `x0`/`csx` and
`v0`/`csv`, followed by the swap `e -> er`, `b -> br`. -/
def commitBlk (dtq : ℚ) (bl : Blk) : Blk :=
  let dtDone2 := dtq * dtq
  let a := bl.x0
  let csx1 := bl.csx +
    (bl.b6 / 72 + bl.b5 / 56 + bl.b4 / 42 + bl.b3 / 30 + bl.b2 / 20 + bl.b1 / 12 +
      bl.b0 / 6 + bl.a0 / 2) * dtDone2 + bl.v0 * dtq
  let x0n := a + csx1
  let csx2 := csx1 + (a - x0n)
  let av := bl.v0
  let csv1 := bl.csv +
    (bl.b6 / 8 + bl.b5 / 7 + bl.b4 / 6 + bl.b3 / 5 + bl.b2 / 4 + bl.b1 / 3 +
      bl.b0 / 2 + bl.a0) * dtq
  let v0n := av + csv1
  let csv2 := csv1 + (av - v0n)
  { bl with
    x0 := x0n
    csx := csx2
    v0 := v0n
    csv := csv2
    er0 := bl.e0
    er1 := bl.e1
    er2 := bl.e2
    er3 := bl.e3
    er4 := bl.e4
    er5 := bl.e5
    er6 := bl.e6
    br0 := bl.b0
    br1 := bl.b1
    br2 := bl.b2
    br3 := bl.b3
    br4 := bl.b4
    br5 := bl.b5
    br6 := bl.b6 }

/-- Cache the current position of a particle into its past-position tables at
`[lvl][sub]` (lines 502-504; `lvl = -dtexp`, `sub = dtexp_substep[-dtexp]`). -/
def cachePast (lvl sub : ℕ) (p : Particle) : Particle :=
  { p with
    xpast := fun l s2 => if l = lvl ∧ s2 = sub then p.x else p.xpast l s2
    ypast := fun l s2 => if l = lvl ∧ s2 = sub then p.y else p.ypast l s2
    zpast := fun l s2 => if l = lvl ∧ s2 = sub then p.z else p.zpast l s2 }

/-- Commit of one particle (lines 451-505): an in-class particle gets the
compensated update of all three components, its final position and velocity
written back from `x0`/`v0`, and `tdone = t + dt`, `dtdone = dt` recorded; a
particle of another class only has its position restored from `x0`.  In both
cases the resulting position is cached into the past tables at
`[-dtexp][dtexp_substep[-dtexp]]`. -/
def commitP (dtexpG : ℤ) (dtq tGlob : ℚ) (lvl sub : ℕ) (p : Particle) : Particle :=
  if p.dtexp = dtexpG then
    let bx := commitBlk dtq p.cX
    let bby := commitBlk dtq p.cY
    let bz := commitBlk dtq p.cZ
    cachePast lvl sub
      { p with
        cX := bx
        cY := bby
        cZ := bz
        x := bx.x0
        y := bby.x0
        z := bz.x0
        vx := bx.v0
        vy := bby.v0
        vz := bz.v0
        tdone := tGlob + dtq
        dtdone := dtq }
  else
    cachePast lvl sub { p with x := p.cX.x0, y := p.cY.x0, z := p.cZ.x0 }

/-- One accumulation of the per-particle error maximum in the step controller
(lines 513-521): the candidate is `errork = fabs(b6k/ak)`.  The accumulator is
`some m` while the running maximum is the finite value `m`, and `none` once an
infinite candidate (`ak = 0`, `b6k` nonzero) has been accepted; a NaN
candidate (`ak = 0 = b6k`) compares false and is skipped, and no finite
candidate exceeds an infinite running maximum. -/
def axisStep (acc : Option ℚ) (b6k ak : ℚ) : Option ℚ :=
  if ak = 0 then (if b6k = 0 then acc else none)
  else
    match acc with
    | none => none
    | some m => if |b6k / ak| > m then some |b6k / ak| else some m

/-- The clamp of the controller (lines 526-531): values above `0` become `0`,
values below `-2` become `-2`. -/
def clampExp (z : ℤ) : ℤ :=
  if z > 0 then 0 else if z < -2 then -2 else z

/-- The step controller applied to one in-class particle (lines 511-535):
compute `errork_max` over the three axes from `b6` and `at`; if it is a normal
number, set `dtexp` to the clamped oracle value for
`floor(log(dtparticle/integrator_max_dt)/log(8.))`; otherwise set `dtexp = 0`. -/
def controllerP (lg : LgOracle) (dtq : ℚ) (p : Particle) : Particle :=
  let m := axisStep (axisStep (axisStep (some 0) p.cX.b6 p.cX.att) p.cY.b6 p.cY.att)
    p.cZ.b6 p.cZ.att
  match m with
  | none => { p with dtexp := 0 }
  | some q => if q ≠ 0 then { p with dtexp := clampExp (lg q dtq) } else { p with dtexp := 0 }

/-- `dtexp_min` recomputation (lines 538-544): the minimum, over the particles
whose `dtexp` converts to a normal double (i.e. is nonzero), of `dtexp`,
starting from `0`. -/
def dtexpMinOf (n : ℕ) (ps : ℕ → Particle) : ℤ :=
  (List.range n).foldl
    (fun acc i => if (ps i).dtexp < acc ∧ isnormalZ (ps i).dtexp then (ps i).dtexp else acc) 0

/-- Result of one `integrator_ias15_step` call: the C return value, the new
global state, and whether the single non-convergence warning was emitted by
this call. -/
structure StepOut where
  retval : ℤ
  state : IState
  warned : Bool

/-- The particle store after the preparatory phases of a step: warm start
(lines 177-231), capture of `x0,v0,a0` (lines 234-244) and the initial `g`
from `b` (lines 246-254). -/
def prepParticles (dtq : ℚ) (st : IState) : ℕ → Particle :=
  mapN st.n (fun _ p => initGP p)
    (mapN st.n (fun _ p => captureP p)
      (mapN st.n (fun _ p => warmStartP dtq p) st.particles))

/-- The iteration context of a step. -/
def mkCtx (force : Force) (dtq : ℚ) (st : IState) : Ctx :=
  { n := st.n
    dtq := dtq
    t := st.t
    dtexpG := st.dtexp
    velDep := st.problem_additional_forces && st.integrator_force_is_velocitydependent
    force := force }

/-- The full predictor-corrector loop of a step, started from
`predictor_corrector_error = 1e300`, `predictor_corrector_error_last = 2`,
`iterations = 0` (lines 256-258) on the prepared particle store. -/
def loopRun (force : Force) (dtq : ℚ) (st : IState) : ℕ × ((ℕ → Particle) × Bool) :=
  pcRun (iterBody (mkCtx force dtq st)) 13 (10 ^ 300) 2 0 (prepParticles dtq st)

/-- The sub-step bookkeeping at the end of a step (lines 545-564), applied to
the state carrying the post-controller particles and the recomputed
`dtexp_min`: increment `dtexp_substep[-dtexp]` and advance `t`; on a wrap to
8, reset the sub-index, coarsen the class by one and either adopt `dtexp_min`
(when the incremented class is positive) or rewind `t` by the freshly scaled
`dtt`; without a wrap adopt `dtexp_min` directly. -/
def advancePhase (st : IState) : IState :=
  let lvl := (-st.dtexp).toNat
  let sub1 : ℕ → ℕ := fun i => if i = lvl then st.dtexp_substep lvl + 1 else st.dtexp_substep i
  let t1 := st.t + dtAtEntry st
  if sub1 lvl = 8 then
    let sub2 : ℕ → ℕ := fun i => if i = lvl then 0 else sub1 i
    let de1 := st.dtexp + 1
    if de1 > 0 then
      { st with dtexp_substep := sub2, dtexp := st.dtexp_min, t := t1 }
    else
      let dtt := dtProduct st.integrator_max_dt de1 sub2
      { st with dtexp_substep := sub2, dtexp := de1, t := t1 - dtt }
  else
    { st with dtexp_substep := sub1, dtexp := st.dtexp_min, t := t1 }

/-- The committed particle store of a step (lines 451-505 applied to the
loop-final store). -/
def commitParticles (force : Force) (dtq : ℚ) (st : IState) : ℕ → Particle :=
  mapN st.n
    (fun _ p =>
      commitP st.dtexp dtq st.t (-st.dtexp).toNat (st.dtexp_substep (-st.dtexp).toNat) p)
    (loopRun force dtq st).2.1

/-- The particle store after the adaptive step controller (lines 510-536): the
controller runs only when `integrator_epsilon > 0`, and only on the particles
of the current class. -/
def postControllerParticles (force : Force) (lg : LgOracle) (dtq : ℚ) (st : IState) :
    ℕ → Particle :=
  if 0 < st.integrator_epsilon then
    mapN st.n (fun _ p => if p.dtexp = st.dtexp then controllerP lg dtq p else p)
      (commitParticles force dtq st)
  else commitParticles force dtq st

/-- The recomputed `dtexp_min` of a step (lines 538-544). -/
def stepDtexpMin (force : Force) (lg : LgOracle) (dtq : ℚ) (st : IState) : ℤ :=
  dtexpMinOf st.n (postControllerParticles force lg dtq st)

/-- The body of `integrator_ias15_step` (lines 132-566): compute `dt`, warm
start, capture, initial `g`, the predictor-corrector loop, the commit, the
adaptive step controller (only when `integrator_epsilon > 0`), the
`dtexp_min` recomputation and the sub-step advance.  Returns `1` always; on an
exit of the corrector loop through the 12-iteration branch the counter
`integrator_iterations_max_exceeded` is incremented and the warning is emitted
exactly when the incremented counter equals 10. -/
def integrator_ias15_step (force : Force) (lg : LgOracle) (st : IState) : StepOut :=
  let dtq := dtAtEntry st
  let exceeded := (loopRun force dtq st).2.2
  let counter1 := st.integrator_iterations_max_exceeded + (if exceeded then 1 else 0)
  let st1 := { st with
    particles := postControllerParticles force lg dtq st
    dtexp_min := stepDtexpMin force lg dtq st
    integrator_iterations_max_exceeded := counter1 }
  { retval := 1
    state := advancePhase st1
    warned := exceeded && (counter1 == 10) }

/-- The retry loop of `integrator_part2` (line 125): call the step routine
until it reports success, with fuel bounding the number of attempts.  Returns
the number of step calls made and the final state, or `none` when the fuel is
exhausted before a success. -/
def part2Run (force : Force) (lg : LgOracle) : ℕ → IState → Option (ℕ × IState)
  | 0, _ => none
  | fuel + 1, st =>
    let out := integrator_ias15_step force lg st
    if out.retval ≠ 0 then some (1, out.state)
    else (part2Run force lg fuel out.state).map (fun pr => (pr.1 + 1, pr.2))

/-- A particle record as stored in a restart file.  Only the `number` field of
`struct particle` is inspected by `input_binary`; the rest of the record is
abstracted into an opaque payload (the struct layout lives in `particle.h`,
which only declares data irrelevant to the claim). -/
structure FileRecord where
  number : ℤ
  payload : ℚ

/-- A well-formed restart file (binary format: `int N`, `double t`, then the
particle records). -/
structure BinFile where
  headerN : ℤ
  t : ℚ
  recs : List FileRecord

/-- The record-reading loop of `input_binary` (lines 121-127): read one record
per header-count iteration, and add it to the simulation only when its
`number` field is strictly positive. -/
def inputBinaryAdds : ℕ → List FileRecord → List FileRecord
  | 0, _ => []
  | _ + 1, [] => []
  | k + 1, p :: rest =>
    if 0 < p.number then p :: inputBinaryAdds k rest else inputBinaryAdds k rest

/-- `input_binary` (lines 103-130): read the header count and the time, then
run the record loop; the result is the restored time together with the list of
particles added (in file order). -/
def input_binary (f : BinFile) : ℚ × List FileRecord :=
  (f.t, inputBinaryAdds f.headerN.toNat f.recs)

/-- A force oracle that writes zero acceleration into every particle. -/
def zeroForce : Force := fun _ _ _ => (0, 0, 0)

/-- An arbitrary controller oracle (never consulted in the concrete scenarios
below, whose error estimates are all non-normal). -/
def zeroLg : LgOracle := fun _ _ => 0

/-- One whole step as a state transformer. -/
def stepState (force : Force) (lg : LgOracle) (st : IState) : IState :=
  (integrator_ias15_step force lg st).state

/-- Initial state of the free-drift scenario: one particle at the origin with
velocity `(1,0,0)`, zero acceleration, `integrator_max_dt = 1`, all scratch
buffers zeroed (as after the lazy allocation) and default tunables. -/
def freeDriftInit : IState :=
  { n := 1
    t := 0
    integrator_epsilon := 0.00001
    integrator_max_dt := 1
    particles := fun _ => { vx := 1 } }

/-- One free-drift step: the step routine with the zero force kernel. -/
def freeDriftStep (st : IState) : IState := stepState zeroForce zeroLg st

/-- Zero-coefficient shape of one scalar component during the free-drift run:
all `b` and `g` coefficients vanish, the captured acceleration is zero, the
compensated residuals are zero, and the captured position and velocity are
`x0v` and `v0v`.  (The `e`, `br`, `er` buffers are omitted: with the BD
correction disabled in the source they are written but never read back into
the dynamics.) -/
def ZB (x0v v0v : ℚ) (bl : Blk) : Prop :=
  bl.b0 = 0 ∧ bl.b1 = 0 ∧ bl.b2 = 0 ∧ bl.b3 = 0 ∧ bl.b4 = 0 ∧ bl.b5 = 0 ∧ bl.b6 = 0 ∧
  bl.g0 = 0 ∧ bl.g1 = 0 ∧ bl.g2 = 0 ∧ bl.g3 = 0 ∧ bl.g4 = 0 ∧ bl.g5 = 0 ∧ bl.g6 = 0 ∧
  bl.a0 = 0 ∧ bl.csx = 0 ∧ bl.csv = 0 ∧ bl.x0 = x0v ∧ bl.v0 = v0v

/-- Invariant of the free-drift run after `k` steps: time `k`, sub-step index
`k % 8`, class `0`, and the single particle at `(k,0,0)` with velocity
`(1,0,0)`, zero acceleration and zero-shaped scratch components. -/
def DriftInv (k : ℕ) (st : IState) : Prop :=
  st.n = 1 ∧ st.t = (k : ℚ) ∧ st.integrator_epsilon = 0.00001 ∧
  st.integrator_max_dt = 1 ∧ st.problem_additional_forces = false ∧
  st.dtexp = 0 ∧ st.dtexp_substep 0 = k % 8 ∧
  (st.particles 0).dtexp = 0 ∧
  (st.particles 0).x = (k : ℚ) ∧ (st.particles 0).y = 0 ∧ (st.particles 0).z = 0 ∧
  (st.particles 0).vx = 1 ∧ (st.particles 0).vy = 0 ∧ (st.particles 0).vz = 0 ∧
  (st.particles 0).ax = 0 ∧ (st.particles 0).ay = 0 ∧ (st.particles 0).az = 0 ∧
  (st.particles 0).cX.csx = 0 ∧ (st.particles 0).cX.csv = 0 ∧
  (st.particles 0).cY.csx = 0 ∧ (st.particles 0).cY.csv = 0 ∧
  (st.particles 0).cZ.csx = 0 ∧ (st.particles 0).cZ.csv = 0

/-- Mid-loop shape of the free-drift particle store: class `0` and
zero-shaped components with captured position `(kq,0,0)` and captured
velocity `(1,0,0)`.  The current predicted position is unconstrained. -/
def MidInv (kq : ℚ) (ps : ℕ → Particle) : Prop :=
  (ps 0).dtexp = 0 ∧
  ZB kq 1 (ps 0).cX ∧ ZB 0 0 (ps 0).cY ∧ ZB 0 0 (ps 0).cZ

/-- Initial state of the class-jump scenario for the time-step bound: one
particle already assigned to class `-1`, fixed-step mode
(`integrator_epsilon = 0`), `integrator_min_dt = 1/2 > 0` and
`integrator_max_dt = 1`; the global class is still `0`. -/
def dtJumpInit : IState :=
  { n := 1
    t := 0
    integrator_epsilon := 0
    integrator_min_dt := 1 / 2
    integrator_max_dt := 1
    particles := fun _ => { dtexp := -1 } }

/-- The class-jump state after one step: the global class has become `-1` with
sub-step index `1` consumed at level `0`. -/
def dtJumpNext : IState := stepState zeroForce zeroLg dtJumpInit

/-- A one-particle state with the additional-forces hook installed and the
velocity-dependent flag set, whose particle sits in class `-1` while the
global class is `0`. -/
def velDepSt : IState :=
  { n := 1
    integrator_max_dt := 1
    problem_additional_forces := true
    integrator_force_is_velocitydependent := true
    particles := fun _ => { dtexp := -1 } }

/-- The record loop of `input_binary` keeps exactly the records with
positive `number` among the first `headerN` records, in file order. -/
theorem inputBinaryAdds_eq_filter :
    ∀ (k : ℕ) (l : List FileRecord),
      inputBinaryAdds k l = (l.take k).filter (fun p => 0 < p.number) := by
  intro k
  induction k with
  | zero => intro l; simp [inputBinaryAdds]
  | succ k ih =>
    intro l
    cases l with
    | nil => simp [inputBinaryAdds]
    | cons p rest =>
      by_cases hp : 0 < p.number
      · simp [inputBinaryAdds, hp, ih]
      · simp [inputBinaryAdds, hp, ih]

/-- C10: `input_binary` restores the header time, adds exactly the records
with strictly positive `number` among the `headerN` records read (silently
skipping the others, in order), so the number of particles added is at most
the header count, and can be strictly smaller. -/
theorem input_binary_filters_records (f : BinFile)
    (_hlen : f.headerN.toNat ≤ f.recs.length) :
    (input_binary f).1 = f.t ∧
    (input_binary f).2 = (f.recs.take f.headerN.toNat).filter (fun p => 0 < p.number) ∧
    (input_binary f).2.length ≤ f.headerN.toNat ∧
    ∃ g : BinFile, g.headerN.toNat ≤ g.recs.length ∧
      (input_binary g).2.length < g.headerN.toNat := by
  refine ⟨rfl, inputBinaryAdds_eq_filter _ _, ?_, ?_⟩
  · calc (input_binary f).2.length
        = ((f.recs.take f.headerN.toNat).filter (fun p => 0 < p.number)).length := by
          rw [show (input_binary f).2 = inputBinaryAdds f.headerN.toNat f.recs from rfl,
            inputBinaryAdds_eq_filter]
      _ ≤ (f.recs.take f.headerN.toNat).length := List.length_filter_le _ _
      _ ≤ f.headerN.toNat := by
          simp [List.length_take_le]
  · refine ⟨⟨1, 0, [⟨0, 0⟩]⟩, by simp, ?_⟩
    simp [input_binary, inputBinaryAdds]

/-- Witness for C10 at a concrete three-record file with header count 3, of
which one record has nonpositive `number`. -/
theorem input_binary_filters_records_witness :
    (input_binary ⟨3, 5, [⟨2, 0⟩, ⟨-1, 0⟩, ⟨7, 0⟩]⟩).1 = (5 : ℚ) ∧
    (input_binary ⟨3, 5, [⟨2, 0⟩, ⟨-1, 0⟩, ⟨7, 0⟩]⟩).2 =
      (([⟨2, 0⟩, ⟨-1, 0⟩, ⟨7, 0⟩] : List FileRecord).take (3 : ℤ).toNat).filter
        (fun p => 0 < p.number) ∧
    (input_binary ⟨3, 5, [⟨2, 0⟩, ⟨-1, 0⟩, ⟨7, 0⟩]⟩).2.length ≤ (3 : ℤ).toNat ∧
    ∃ g : BinFile, g.headerN.toNat ≤ g.recs.length ∧
      (input_binary g).2.length < g.headerN.toNat :=
  input_binary_filters_records ⟨3, 5, [⟨2, 0⟩, ⟨-1, 0⟩, ⟨7, 0⟩]⟩ (by decide)

/-- C1: the code disables the BD correction.  At the start of a step with a
previous successful step (`isnormal(dtdone)`), the warm start does set `e` to
the polynomial extrapolation of `br` (here `q = 1`, `br_0 = 1`, so `e_0 = 1`),
but it then sets every `b` coefficient to `0.` instead of
`e + (br - er)` (which here would be `2`); the in-source comment at lines
173-175 states that the BD correction "is applied in advance", and the
commented-out correction sits under a `#warning TODO`, so the code contradicts
its own documentation. -/
theorem warm_start_zeroes_b :
    (warmStartP 1 { dtdone := 1, cX := { br0 := 1 } }).cX.e0 = 1 ∧
    (warmStartP 1 { dtdone := 1, cX := { br0 := 1 } }).cX.b0 = 0 ∧
    (warmStartP 1 { dtdone := 1, cX := { br0 := 1 } }).cX.b0 ≠
      (warmStartP 1 { dtdone := 1, cX := { br0 := 1 } }).cX.e0 +
        (({ br0 := 1 } : Blk).br0 - ({ br0 := 1 } : Blk).er0) := by
  refine ⟨?_, ?_, ?_⟩ <;> norm_num [warmStartP, isnormalQ, warmStartBlk]

/-- Helper: the predictor-corrector loop never reports more than
`max it 12` iterations. -/
theorem pcRun_iters_le (body : (ℕ → Particle) → (ℕ → Particle) × ℚ) :
    ∀ (fuel : ℕ) (pce pceLast : ℚ) (it : ℕ) (ps : ℕ → Particle),
      (pcRun body fuel pce pceLast it ps).1 ≤ max it 12 := by
  intro fuel
  induction fuel with
  | zero => intro pce pceLast it ps; exact le_max_left _ _
  | succ fuel ih =>
    intro pce pceLast it ps
    by_cases h1 : pce < convergedBound
    · simp [pcRun, h1]
    · by_cases h2 : 2 < it ∧ pceLast ≤ pce
      · simp [pcRun, h1, h2]
      · by_cases h3 : 12 ≤ it
        · simp [pcRun, h1, h2, h3]
        · have := ih (body ps).2 pce (it + 1) (body ps).1
          have hle : max (it + 1) 12 ≤ max it 12 := by omega
          calc (pcRun body (fuel + 1) pce pceLast it ps).1
              = (pcRun body fuel (body ps).2 pce (it + 1) (body ps).1).1 := by
                simp [pcRun, h1, h2, h3]
            _ ≤ max (it + 1) 12 := this
            _ ≤ max it 12 := hle

/-- Helper: once the fuel exceeds the remaining iteration budget the result of
the predictor-corrector loop no longer depends on it. -/
theorem pcRun_fuel_stable (body : (ℕ → Particle) → (ℕ → Particle) × ℚ) :
    ∀ (fuel fuel2 : ℕ) (pce pceLast : ℚ) (it : ℕ) (ps : ℕ → Particle),
      12 - it < fuel → 12 - it < fuel2 →
      pcRun body fuel pce pceLast it ps = pcRun body fuel2 pce pceLast it ps := by
  intro fuel
  induction fuel with
  | zero => intro fuel2 pce pceLast it ps hf _; omega
  | succ fuel ih =>
    intro fuel2 pce pceLast it ps hf hf2
    cases fuel2 with
    | zero => omega
    | succ fuel2 =>
      by_cases h1 : pce < convergedBound
      · simp [pcRun, h1]
      · by_cases h2 : 2 < it ∧ pceLast ≤ pce
        · simp [pcRun, h1, h2]
        · by_cases h3 : 12 ≤ it
          · simp [pcRun, h1, h2, h3]
          · have hrec := ih fuel2 (body ps).2 pce (it + 1) (body ps).1
              (by omega) (by omega)
            simp [pcRun, h1, h2, h3, hrec]

/-- C2: the predictor-corrector loop terminates through one of its three
guards (metric below `1e-16`; metric non-decreasing after more than 2
completed iterations; 12 iterations elapsed): the fuelled loop started as in
the source (`1e300`, `2`, `0` iterations) gives the same result for any fuel
of at least 13 units, and no invocation of the step routine performs more
than 12 corrector iterations. -/
theorem pc_loop_terminates_within_12 :
    (∀ (force : Force) (dtq : ℚ) (st : IState), (loopRun force dtq st).1 ≤ 12) ∧
    (∀ (body : (ℕ → Particle) → (ℕ → Particle) × ℚ) (pce pceLast : ℚ) (ps : ℕ → Particle),
      (pcRun body 13 pce pceLast 0 ps).1 ≤ 12) ∧
    (∀ (body : (ℕ → Particle) → (ℕ → Particle) × ℚ) (pce pceLast : ℚ)
      (ps : ℕ → Particle) (extra : ℕ),
      pcRun body (13 + extra) pce pceLast 0 ps = pcRun body 13 pce pceLast 0 ps) := by
  refine ⟨?_, ?_, ?_⟩
  · intro force dtq st
    have hx := pcRun_iters_le (iterBody (mkCtx force dtq st)) 13 (10 ^ 300) 2 0
      (prepParticles dtq st)
    simp only [loopRun]
    omega
  · intro body pce pceLast ps
    have hx := pcRun_iters_le body 13 pce pceLast 0 ps
    omega
  · intro body pce pceLast ps extra
    exact pcRun_fuel_stable body (13 + extra) 13 pce pceLast 0 ps (by omega) (by omega)

/-- Helper: the sub-step advance at the end of a step does not touch the
particle store. -/
theorem advancePhase_particles (s : IState) : (advancePhase s).particles = s.particles := by
  unfold advancePhase
  dsimp only
  repeat' split
  all_goals rfl

/-- Helper: the sub-step advance does not touch the iteration-overflow
counter. -/
theorem advancePhase_counter (s : IState) :
    (advancePhase s).integrator_iterations_max_exceeded =
      s.integrator_iterations_max_exceeded := by
  unfold advancePhase
  dsimp only
  repeat' split
  all_goals rfl

/-- Helper: the sub-step advance keeps every tunable. -/
theorem advancePhase_tunables (s : IState) :
    (advancePhase s).integrator_epsilon = s.integrator_epsilon ∧
    (advancePhase s).integrator_min_dt = s.integrator_min_dt ∧
    (advancePhase s).integrator_max_dt = s.integrator_max_dt ∧
    (advancePhase s).n = s.n := by
  refine ⟨?_, ?_, ?_, ?_⟩ <;>
    (unfold advancePhase; dsimp only; repeat' split) <;> rfl

/-- C4: the step routine always reports success (`return 1`), so the retry
loop of `integrator_part2` invokes it exactly once; an exit of the corrector
loop through the 12-iteration branch is recoverable: the step is still
committed, the counter `integrator_iterations_max_exceeded` is incremented by
one, and the single warning is emitted exactly when the incremented counter
reaches the threshold 10. -/
theorem step_always_succeeds (force : Force) (lg : LgOracle) (st : IState) (fuel : ℕ) :
    (integrator_ias15_step force lg st).retval = 1 ∧
    (integrator_ias15_step force lg st).state.integrator_iterations_max_exceeded =
      st.integrator_iterations_max_exceeded +
        (if (loopRun force (dtAtEntry st) st).2.2 then 1 else 0) ∧
    ((integrator_ias15_step force lg st).warned = true ↔
      ((loopRun force (dtAtEntry st) st).2.2 = true ∧
        st.integrator_iterations_max_exceeded + 1 = 10)) ∧
    part2Run force lg (fuel + 1) st = some (1, (integrator_ias15_step force lg st).state) := by
  refine ⟨rfl, ?_, ?_, ?_⟩
  · simp only [integrator_ias15_step]
    rw [advancePhase_counter]
  · simp only [integrator_ias15_step]
    cases hE : (loopRun force (dtAtEntry st) st).2.2 <;> simp [hE]
  · have hr : (integrator_ias15_step force lg st).retval = 1 := rfl
    simp [part2Run, hr]

/-- Helper: a per-particle update that keeps `dtexp` keeps it through `mapN`. -/
theorem mapN_dtexp (n : ℕ) (f : ℕ → Particle → Particle) (ps : ℕ → Particle) (i : ℕ)
    (hf : ∀ j p, (f j p).dtexp = p.dtexp) : (mapN n f ps i).dtexp = (ps i).dtexp := by
  unfold mapN
  split
  · exact hf i (ps i)
  · rfl

/-- Helper: no phase of a corrector node pass writes the class field of any
particle. -/
theorem nodePass_dtexp (cx : Ctx) (nd : ℕ) (s : (ℕ → Particle) × ℚ) (i : ℕ) :
    ((nodePass cx nd s).1 i).dtexp = (s.1 i).dtexp := by
  have hpos : ∀ (j : ℕ) (p : Particle), (predictPosP cx nd p).dtexp = p.dtexp := by
    intro j p; unfold predictPosP; split <;> rfl
  have hvel : ∀ (j : ℕ) (p : Particle), (predictVelP cx nd p).dtexp = p.dtexp :=
    fun _ _ => rfl
  have hacc : ∀ (F : ℕ → ℚ × ℚ × ℚ) (j : ℕ) (p : Particle),
      (setAcc p (F j)).dtexp = p.dtexp := fun _ _ _ => rfl
  have hcopy : ∀ (j : ℕ) (p : Particle),
      (if p.dtexp = cx.dtexpG then copyAtP p else p).dtexp = p.dtexp := by
    intro j p; split <;> rfl
  have hupd : ∀ (j : ℕ) (p : Particle),
      (if p.dtexp = cx.dtexpG then nodeUpdP nd p else p).dtexp = p.dtexp := by
    intro j p; split <;> rfl
  unfold nodePass
  dsimp only
  cases hv : cx.velDep
  · simp only [hv, Bool.false_eq_true, if_false, ite_false]
    rw [mapN_dtexp _ _ _ _ hupd, mapN_dtexp _ _ _ _ hcopy,
      mapN_dtexp _ _ _ _ (hacc _), mapN_dtexp _ _ _ _ hpos]
  · simp only [hv, if_true, ite_true]
    rw [mapN_dtexp _ _ _ _ hupd, mapN_dtexp _ _ _ _ hcopy,
      mapN_dtexp _ _ _ _ (hacc _), mapN_dtexp _ _ _ _ hvel, mapN_dtexp _ _ _ _ hpos]

/-- Helper: a whole corrector iteration keeps every class field. -/
theorem iterBody_dtexp (cx : Ctx) (ps : ℕ → Particle) (i : ℕ) :
    ((iterBody cx ps).1 i).dtexp = (ps i).dtexp := by
  unfold iterBody
  simp only [List.foldl, nodePass_dtexp]

/-- Helper: the predictor-corrector loop keeps every class field when its body
does. -/
theorem pcRun_dtexp (body : (ℕ → Particle) → (ℕ → Particle) × ℚ)
    (hbody : ∀ ps i, ((body ps).1 i).dtexp = (ps i).dtexp) :
    ∀ (fuel : ℕ) (pce pceLast : ℚ) (it : ℕ) (ps : ℕ → Particle) (i : ℕ),
      ((pcRun body fuel pce pceLast it ps).2.1 i).dtexp = (ps i).dtexp := by
  intro fuel
  induction fuel with
  | zero => intro pce pceLast it ps i; rfl
  | succ fuel ih =>
    intro pce pceLast it ps i
    by_cases h1 : pce < convergedBound
    · simp [pcRun, h1]
    · by_cases h2 : 2 < it ∧ pceLast ≤ pce
      · simp [pcRun, h1, h2]
      · by_cases h3 : 12 ≤ it
        · simp [pcRun, h1, h2, h3]
        · simp only [pcRun, h1, h2, h3, if_false]
          rw [ih, hbody]

/-- Helper: the preparatory phases keep every class field. -/
theorem prep_dtexp (dtq : ℚ) (st : IState) (i : ℕ) :
    (prepParticles dtq st i).dtexp = (st.particles i).dtexp := by
  have hw : ∀ (j : ℕ) (p : Particle), (warmStartP dtq p).dtexp = p.dtexp := by
    intro j p; unfold warmStartP; split <;> rfl
  have hinit : ∀ (j : ℕ) (p : Particle), (initGP p).dtexp = p.dtexp := fun _ _ => rfl
  have hcap : ∀ (j : ℕ) (p : Particle), (captureP p).dtexp = p.dtexp := fun _ _ => rfl
  unfold prepParticles
  rw [mapN_dtexp _ _ _ _ hinit, mapN_dtexp _ _ _ _ hcap, mapN_dtexp _ _ _ _ hw]

/-- Helper: the loop-final particle store keeps every entry class field. -/
theorem loopRun_dtexp (force : Force) (dtq : ℚ) (st : IState) (i : ℕ) :
    ((loopRun force dtq st).2.1 i).dtexp = (st.particles i).dtexp := by
  unfold loopRun
  rw [pcRun_dtexp _ (fun ps j => iterBody_dtexp _ ps j), prep_dtexp]

/-- Helper: the commit keeps the class field. -/
theorem commitP_dtexp (dtexpG : ℤ) (dtq tGlob : ℚ) (lvl sub : ℕ) (p : Particle) :
    (commitP dtexpG dtq tGlob lvl sub p).dtexp = p.dtexp := by
  unfold commitP cachePast
  split <;> rfl

/-- Helper: the clamp of the step controller lands in `[-2, 0]`. -/
theorem clampExp_mem (z : ℤ) : -2 ≤ clampExp z ∧ clampExp z ≤ 0 := by
  unfold clampExp
  split
  · omega
  · split <;> omega

/-- Helper: the step controller writes a class in `[-2, 0]`. -/
theorem controllerP_dtexp_mem (lg : LgOracle) (dtq : ℚ) (p : Particle) :
    -2 ≤ (controllerP lg dtq p).dtexp ∧ (controllerP lg dtq p).dtexp ≤ 0 := by
  unfold controllerP
  dsimp only
  split
  · exact ⟨by norm_num, by norm_num⟩
  · split
    · exact clampExp_mem _
    · exact ⟨by norm_num, by norm_num⟩

/-- Helper: the step controller touches only the class field. -/
theorem controllerP_fields (lg : LgOracle) (dtq : ℚ) (p : Particle) :
    (controllerP lg dtq p).x = p.x ∧ (controllerP lg dtq p).y = p.y ∧
    (controllerP lg dtq p).z = p.z ∧ (controllerP lg dtq p).vx = p.vx ∧
    (controllerP lg dtq p).vy = p.vy ∧ (controllerP lg dtq p).vz = p.vz ∧
    (controllerP lg dtq p).tdone = p.tdone ∧ (controllerP lg dtq p).dtdone = p.dtdone ∧
    (controllerP lg dtq p).xpast = p.xpast ∧ (controllerP lg dtq p).ypast = p.ypast ∧
    (controllerP lg dtq p).zpast = p.zpast ∧ (controllerP lg dtq p).cX = p.cX ∧
    (controllerP lg dtq p).cY = p.cY ∧ (controllerP lg dtq p).cZ = p.cZ := by
  unfold controllerP
  dsimp only
  split
  · exact ⟨rfl, rfl, rfl, rfl, rfl, rfl, rfl, rfl, rfl, rfl, rfl, rfl, rfl, rfl⟩
  · split <;> exact ⟨rfl, rfl, rfl, rfl, rfl, rfl, rfl, rfl, rfl, rfl, rfl, rfl, rfl, rfl⟩

/-- Helper: the particle a step writes back at index `i < N` is the committed
(and, in adaptive mode, controller-updated) loop-final particle. -/
theorem step_particles_eq (force : Force) (lg : LgOracle) (st : IState) (i : ℕ)
    (hi : i < st.n) :
    (integrator_ias15_step force lg st).state.particles i =
      (fun q => if 0 < st.integrator_epsilon then
          (if q.dtexp = st.dtexp then controllerP lg (dtAtEntry st) q else q) else q)
        (commitP st.dtexp (dtAtEntry st) st.t (-st.dtexp).toNat
          (st.dtexp_substep (-st.dtexp).toNat)
          ((loopRun force (dtAtEntry st) st).2.1 i)) := by
  simp only [integrator_ias15_step]
  rw [advancePhase_particles]
  dsimp only
  unfold postControllerParticles commitParticles
  by_cases he : 0 < st.integrator_epsilon <;>
    simp only [he, if_true, if_false, ite_true, ite_false, mapN, hi]

/-- Helper: a step leaves the particle entries at indices `≥ N` exactly as the
predictor-corrector loop left them (every later phase is an `i < N` loop). -/
theorem step_particles_ge (force : Force) (lg : LgOracle) (st : IState) (i : ℕ)
    (hi : ¬i < st.n) :
    (integrator_ias15_step force lg st).state.particles i =
      (loopRun force (dtAtEntry st) st).2.1 i := by
  simp only [integrator_ias15_step]
  rw [advancePhase_particles]
  dsimp only
  unfold postControllerParticles commitParticles
  by_cases he : 0 < st.integrator_epsilon <;>
    simp only [he, if_true, if_false, ite_true, ite_false, mapN, hi]

/-- Helper: a step keeps the tunables and the particle count. -/
theorem step_tunables (force : Force) (lg : LgOracle) (st : IState) :
    (integrator_ias15_step force lg st).state.integrator_epsilon = st.integrator_epsilon ∧
    (integrator_ias15_step force lg st).state.integrator_min_dt = st.integrator_min_dt ∧
    (integrator_ias15_step force lg st).state.integrator_max_dt = st.integrator_max_dt ∧
    (integrator_ias15_step force lg st).state.n = st.n := by
  simp only [integrator_ias15_step]
  refine ⟨?_, ?_, ?_, ?_⟩
  · rw [(advancePhase_tunables _).1]
  · rw [(advancePhase_tunables _).2.1]
  · rw [(advancePhase_tunables _).2.2.1]
  · rw [(advancePhase_tunables _).2.2.2]

/-- C7: membership of every particle class exponent in `[-2, 0]` is an
invariant of the step routine: when the adaptive controller runs
(`integrator_epsilon > 0`) it writes either the clamp of the oracle exponent
or the fallback `0` (both in `[-2, 0]`, and the clamp maps every integer into
`[-2, 0]`), and no other part of a step writes any particle class. -/
theorem dtexp_range_invariant (force : Force) (lg : LgOracle) (st : IState)
    (hinv : ∀ i, -2 ≤ (st.particles i).dtexp ∧ (st.particles i).dtexp ≤ 0) :
    (∀ i, -2 ≤ ((integrator_ias15_step force lg st).state.particles i).dtexp ∧
      ((integrator_ias15_step force lg st).state.particles i).dtexp ≤ 0) ∧
    (∀ z : ℤ, -2 ≤ clampExp z ∧ clampExp z ≤ 0) := by
  refine ⟨?_, clampExp_mem⟩
  intro i
  by_cases hi : i < st.n
  · rw [step_particles_eq force lg st i hi]
    dsimp only
    split_ifs with h1 h2
    · exact controllerP_dtexp_mem _ _ _
    · rw [commitP_dtexp, loopRun_dtexp]; exact hinv i
    · rw [commitP_dtexp, loopRun_dtexp]; exact hinv i
  · rw [step_particles_ge force lg st i hi, loopRun_dtexp]
    exact hinv i

/-- Witness for C7 at a concrete two-particle state with classes `-1` and `0`
and an oracle that returns `-7`. -/
theorem dtexp_range_invariant_witness :
    (∀ i, -2 ≤ ((integrator_ias15_step zeroForce (fun _ _ => -7)
        { n := 2, integrator_max_dt := 1,
          particles := fun i => if i = 0 then { dtexp := -1 } else {} }).state.particles i).dtexp ∧
      ((integrator_ias15_step zeroForce (fun _ _ => -7)
        { n := 2, integrator_max_dt := 1,
          particles := fun i => if i = 0 then { dtexp := -1 } else {} }).state.particles i).dtexp ≤ 0) ∧
    (∀ z : ℤ, -2 ≤ clampExp z ∧ clampExp z ≤ 0) :=
  dtexp_range_invariant zeroForce (fun _ _ => -7)
    { n := 2, integrator_max_dt := 1,
      particles := fun i => if i = 0 then { dtexp := -1 } else {} }
    (fun i => by by_cases hi : i = 0 <;> simp [hi])

/-- Helper: without a sub-index wrap, the advance adopts `dtexp_min` as the
new class and the incremented sub-index. -/
theorem advance_no_wrap (s : IState) (hw : s.dtexp_substep (-s.dtexp).toNat + 1 ≠ 8) :
    (advancePhase s).dtexp = s.dtexp_min ∧
    (advancePhase s).dtexp_substep (-s.dtexp).toNat =
      s.dtexp_substep (-s.dtexp).toNat + 1 := by
  unfold advancePhase
  dsimp only
  simp only [if_pos rfl, if_true, ite_true, hw, if_false, ite_false]
  constructor <;> simp

/-- Helper: the fields of the class-jump state after one step: the global
class has been refined to `-1` (adopted from the particle), one sub-interval
of level 0 has been consumed, and the tunables are unchanged. -/
theorem dtJumpNext_fields :
    dtJumpNext.dtexp = -1 ∧ dtJumpNext.dtexp_substep 0 = 1 ∧
    dtJumpNext.integrator_max_dt = 1 ∧ dtJumpNext.integrator_min_dt = 1 / 2 := by
  have hmin1 : ∀ ps : ℕ → Particle,
      dtexpMinOf 1 ps =
        if (ps 0).dtexp < 0 ∧ isnormalZ (ps 0).dtexp then (ps 0).dtexp else 0 :=
    fun _ => rfl
  have hd0 : ((loopRun zeroForce (dtAtEntry dtJumpInit) dtJumpInit).2.1 0).dtexp = -1 := by
    rw [loopRun_dtexp]; rfl
  have hpost : (postControllerParticles zeroForce zeroLg (dtAtEntry dtJumpInit)
      dtJumpInit 0).dtexp = -1 := by
    unfold postControllerParticles commitParticles
    have he : ¬(0 : ℚ) < dtJumpInit.integrator_epsilon := by
      show ¬(0 : ℚ) < 0
      exact lt_irrefl 0
    simp only [he, if_false, ite_false, mapN, Nat.zero_lt_one, if_true, ite_true]
    rw [show dtJumpInit.n = 1 from rfl]
    simp only [Nat.zero_lt_one, if_true, ite_true, commitP_dtexp, hd0]
  have hdmin : stepDtexpMin zeroForce zeroLg (dtAtEntry dtJumpInit) dtJumpInit = -1 := by
    unfold stepDtexpMin
    rw [show dtJumpInit.n = 1 from rfl, hmin1, hpost]
    norm_num [isnormalZ]
  have hst : dtJumpNext = advancePhase
      { dtJumpInit with
        particles := postControllerParticles zeroForce zeroLg (dtAtEntry dtJumpInit) dtJumpInit
        dtexp_min := stepDtexpMin zeroForce zeroLg (dtAtEntry dtJumpInit) dtJumpInit
        integrator_iterations_max_exceeded :=
          dtJumpInit.integrator_iterations_max_exceeded +
            (if (loopRun zeroForce (dtAtEntry dtJumpInit) dtJumpInit).2.2 then 1 else 0) } :=
    rfl
  have hw : ({ dtJumpInit with
        particles := postControllerParticles zeroForce zeroLg (dtAtEntry dtJumpInit) dtJumpInit
        dtexp_min := stepDtexpMin zeroForce zeroLg (dtAtEntry dtJumpInit) dtJumpInit
        integrator_iterations_max_exceeded :=
          dtJumpInit.integrator_iterations_max_exceeded +
            (if (loopRun zeroForce (dtAtEntry dtJumpInit) dtJumpInit).2.2 then 1 else 0) }
      : IState).dtexp_substep (-({ dtJumpInit with
        particles := postControllerParticles zeroForce zeroLg (dtAtEntry dtJumpInit) dtJumpInit
        dtexp_min := stepDtexpMin zeroForce zeroLg (dtAtEntry dtJumpInit) dtJumpInit
        integrator_iterations_max_exceeded :=
          dtJumpInit.integrator_iterations_max_exceeded +
            (if (loopRun zeroForce (dtAtEntry dtJumpInit) dtJumpInit).2.2 then 1 else 0) }
      : IState).dtexp).toNat + 1 ≠ 8 := by
    decide
  refine ⟨?_, ?_, ?_, ?_⟩
  · rw [hst, (advance_no_wrap _ hw).1]
    exact hdmin
  · rw [hst]
    have := (advance_no_wrap _ hw).2
    simpa using this
  · exact (step_tunables _ _ _).2.2.1
  · exact (step_tunables _ _ _).2.1

/-- C3 counterexample: across two consecutive step invocations of the
class-jump scenario the tried time step falls from `1` to
`h[2] - h[1] ≈ 0.124`, a decrease past the factor allowed by
`safety_factor = 0.25`, and it also falls below the positive
`integrator_min_dt = 1/2`: neither `safety_factor` nor `integrator_min_dt` is
consulted anywhere in the step routine. -/
theorem dt_change_unbounded :
    dtAtEntry dtJumpInit = 1 ∧
    dtAtEntry dtJumpNext = 0.1239781311999702185219277518 ∧
    dtAtEntry dtJumpNext < (1 / 4) * dtAtEntry dtJumpInit ∧
    0 < dtJumpInit.integrator_min_dt ∧
    dtJumpNext.integrator_min_dt = dtJumpInit.integrator_min_dt ∧
    dtAtEntry dtJumpNext < dtJumpNext.integrator_min_dt := by
  obtain ⟨hde, hsub, hmax, hmin⟩ := dtJumpNext_fields
  have h1 : dtAtEntry dtJumpInit = 1 := rfl
  have hdp : ∀ (m : ℚ) (sub : ℕ → ℕ), dtProduct m (-1) sub =
      m * (h (sub 0 + 1) - h (sub 0)) := fun _ _ => rfl
  have h2 : dtAtEntry dtJumpNext = 0.1239781311999702185219277518 := by
    unfold dtAtEntry
    rw [hde, hmax, hdp, hsub]
    norm_num [h]
  refine ⟨h1, h2, ?_, by norm_num [dtJumpInit], ?_, ?_⟩
  · rw [h1, h2]; norm_num
  · rw [hmin]; rfl
  · rw [h2, hmin]; norm_num

/-- Helper: each Gauss Radau sub-interval width lies in `[0, 1]`. -/
theorem h_width_bounds : ∀ s2 : ℕ, s2 ≤ 7 → 0 ≤ h (s2 + 1) - h s2 ∧ h (s2 + 1) - h s2 ≤ 1 := by
  intro s2 hs
  interval_cases s2 <;> constructor <;> norm_num [h]

/-- Helper: the tried time step is a product of `integrator_max_dt` with
sub-interval widths in `[0, 1]`, hence lies in `[0, integrator_max_dt]`. -/
theorem dtProduct_bounds (m : ℚ) (de : ℤ) (sub : ℕ → ℕ) (hm : 0 ≤ m)
    (hs : ∀ i, sub i ≤ 7) : 0 ≤ dtProduct m de sub ∧ dtProduct m de sub ≤ m := by
  unfold dtProduct
  generalize (-de).toNat = m2
  induction m2 with
  | zero => exact ⟨hm, le_refl m⟩
  | succ k ih =>
    rw [List.range_succ, List.foldl_append]
    simp only [List.foldl]
    obtain ⟨ih1, ih2⟩ := ih
    obtain ⟨hw1, hw2⟩ := h_width_bounds (sub k) (hs k)
    refine ⟨mul_nonneg ih1 hw1, ?_⟩
    calc (List.range k).foldl (fun acc i => acc * (h (sub i + 1) - h (sub i))) m *
          (h (sub k + 1) - h (sub k))
        ≤ (List.range k).foldl (fun acc i => acc * (h (sub i + 1) - h (sub i))) m * 1 :=
          mul_le_mul_of_nonneg_left hw2 ih1
      _ = (List.range k).foldl (fun acc i => acc * (h (sub i + 1) - h (sub i))) m := mul_one _
      _ ≤ m := ih2

/-- C3 amended: the tried time step is `integrator_max_dt` scaled by the
recorded Gauss Radau sub-interval widths, so with a nonnegative
`integrator_max_dt` and valid sub-indices it always satisfies
`0 ≤ dt ≤ integrator_max_dt` (the upper clamp); no lower bound from
`integrator_min_dt` and no consecutive-step ratio bound from `safety_factor`
holds, as the counterexample shows. -/
theorem dt_at_entry_bounded (st : IState) (hm : 0 ≤ st.integrator_max_dt)
    (hs : ∀ i, st.dtexp_substep i ≤ 7) :
    0 ≤ dtAtEntry st ∧ dtAtEntry st ≤ st.integrator_max_dt :=
  dtProduct_bounds st.integrator_max_dt st.dtexp st.dtexp_substep hm hs

/-- Witness for the amended C3 bound at a concrete state of class `-2` with
sub-indices `(3, 5)`. -/
theorem dt_at_entry_bounded_witness :
    0 ≤ dtAtEntry { integrator_max_dt := 7, dtexp := -2, dtexp_substep := fun i => if i = 0 then 3 else if i = 1 then 5 else 0 } ∧
      dtAtEntry { integrator_max_dt := 7, dtexp := -2, dtexp_substep := fun i => if i = 0 then 3 else if i = 1 then 5 else 0 } ≤
        ({ integrator_max_dt := 7, dtexp := -2, dtexp_substep := fun i => if i = 0 then 3 else if i = 1 then 5 else 0 } : IState).integrator_max_dt :=
  dt_at_entry_bounded
    { integrator_max_dt := 7, dtexp := -2, dtexp_substep := fun i => if i = 0 then 3 else if i = 1 then 5 else 0 }
    (by norm_num)
    (fun i => by by_cases h0 : i = 0 <;> by_cases h1 : i = 1 <;> simp [h0, h1])

/-- Helper: a per-particle update that keeps a projection keeps it through
`mapN`. -/
theorem mapN_preserve {α : Type} (φ : Particle → α) (n : ℕ) (f : ℕ → Particle → Particle)
    (ps : ℕ → Particle) (i : ℕ) (hf : ∀ j p, φ (f j p) = φ p) :
    φ (mapN n f ps i) = φ (ps i) := by
  unfold mapN
  split
  · exact hf i (ps i)
  · rfl

/-- Helper: a projection untouched by every phase of a node pass is kept by
the node pass, for every particle index. -/
theorem nodePass_preserve {α : Type} (φ : Particle → α) (cx : Ctx) (nd : ℕ)
    (s : (ℕ → Particle) × ℚ) (i : ℕ)
    (hpos : ∀ p, φ (predictPosP cx nd p) = φ p)
    (hvel : ∀ p, φ (predictVelP cx nd p) = φ p)
    (hacc : ∀ p a, φ (setAcc p a) = φ p)
    (hcopy : ∀ p, φ (copyAtP p) = φ p)
    (hupd : ∀ p, φ (nodeUpdP nd p) = φ p) :
    φ ((nodePass cx nd s).1 i) = φ (s.1 i) := by
  have hcopy2 : ∀ (j : ℕ) (p : Particle),
      φ (if p.dtexp = cx.dtexpG then copyAtP p else p) = φ p := by
    intro j p; split
    · exact hcopy p
    · rfl
  have hupd2 : ∀ (j : ℕ) (p : Particle),
      φ (if p.dtexp = cx.dtexpG then nodeUpdP nd p else p) = φ p := by
    intro j p; split
    · exact hupd p
    · rfl
  have hacc2 : ∀ (F : ℕ → ℚ × ℚ × ℚ) (j : ℕ) (p : Particle),
      φ (setAcc p (F j)) = φ p := fun F j p => hacc p (F j)
  unfold nodePass
  dsimp only
  cases hv : cx.velDep
  · simp only [hv, Bool.false_eq_true, if_false, ite_false]
    rw [mapN_preserve φ _ _ _ _ hupd2, mapN_preserve φ _ _ _ _ hcopy2,
      mapN_preserve φ _ _ _ _ (hacc2 _), mapN_preserve φ _ _ _ _ (fun _ p => hpos p)]
  · simp only [hv, if_true, ite_true]
    rw [mapN_preserve φ _ _ _ _ hupd2, mapN_preserve φ _ _ _ _ hcopy2,
      mapN_preserve φ _ _ _ _ (hacc2 _), mapN_preserve φ _ _ _ _ (fun _ p => hvel p),
      mapN_preserve φ _ _ _ _ (fun _ p => hpos p)]

/-- Helper: a projection kept by the loop body is kept by the
predictor-corrector loop. -/
theorem pcRun_preserve {α : Type} (φ : Particle → α)
    (body : (ℕ → Particle) → (ℕ → Particle) × ℚ)
    (hbody : ∀ ps i, φ ((body ps).1 i) = φ (ps i)) :
    ∀ (fuel : ℕ) (pce pceLast : ℚ) (it : ℕ) (ps : ℕ → Particle) (i : ℕ),
      φ ((pcRun body fuel pce pceLast it ps).2.1 i) = φ (ps i) := by
  intro fuel
  induction fuel with
  | zero => intro pce pceLast it ps i; rfl
  | succ fuel ih =>
    intro pce pceLast it ps i
    by_cases h1 : pce < convergedBound
    · simp [pcRun, h1]
    · by_cases h2 : 2 < it ∧ pceLast ≤ pce
      · simp [pcRun, h1, h2]
      · by_cases h3 : 12 ≤ it
        · simp [pcRun, h1, h2, h3]
        · simp only [pcRun, h1, h2, h3, if_false]
          rw [ih, hbody]

/-- Helper: the corrector iteration (all seven nodes) keeps any projection
untouched by every node phase. -/
theorem iterBody_preserve {α : Type} (φ : Particle → α) (cx : Ctx)
    (ps : ℕ → Particle) (i : ℕ)
    (hpos : ∀ nd p, φ (predictPosP cx nd p) = φ p)
    (hvel : ∀ nd p, φ (predictVelP cx nd p) = φ p)
    (hacc : ∀ p a, φ (setAcc p a) = φ p)
    (hcopy : ∀ p, φ (copyAtP p) = φ p)
    (hupd : ∀ nd p, φ (nodeUpdP nd p) = φ p) :
    φ ((iterBody cx ps).1 i) = φ (ps i) := by
  unfold iterBody
  simp only [List.foldl]
  rw [nodePass_preserve φ cx 7 _ i (hpos 7) (hvel 7) hacc hcopy (hupd 7),
    nodePass_preserve φ cx 6 _ i (hpos 6) (hvel 6) hacc hcopy (hupd 6),
    nodePass_preserve φ cx 5 _ i (hpos 5) (hvel 5) hacc hcopy (hupd 5),
    nodePass_preserve φ cx 4 _ i (hpos 4) (hvel 4) hacc hcopy (hupd 4),
    nodePass_preserve φ cx 3 _ i (hpos 3) (hvel 3) hacc hcopy (hupd 3),
    nodePass_preserve φ cx 2 _ i (hpos 2) (hvel 2) hacc hcopy (hupd 2),
    nodePass_preserve φ cx 1 _ i (hpos 1) (hvel 1) hacc hcopy (hupd 1)]

/-- Helper: the corrector update of a component changes only the `b` and `g`
coefficients (and reports the change); the captured state, the `at` copy and
the compensated residuals are untouched. -/
theorem nodeUpdBlk_frame (nd : ℕ) (bl : Blk) :
    (nodeUpdBlk nd bl).1.x0 = bl.x0 ∧ (nodeUpdBlk nd bl).1.v0 = bl.v0 ∧
    (nodeUpdBlk nd bl).1.a0 = bl.a0 ∧ (nodeUpdBlk nd bl).1.att = bl.att ∧
    (nodeUpdBlk nd bl).1.csx = bl.csx ∧ (nodeUpdBlk nd bl).1.csv = bl.csv := by
  rcases nd with _ | _ | _ | _ | _ | _ | _ | _ | nd <;>
    exact ⟨rfl, rfl, rfl, rfl, rfl, rfl⟩

/-- Helper: the loop keeps the captured positions `x0` of every component and
the past-position caches of every particle; with `i < N` the captured
positions are the step-entry positions. -/
theorem loopRun_x0 (force : Force) (dtq : ℚ) (st : IState) (i : ℕ) (hi : i < st.n) :
    ((loopRun force dtq st).2.1 i).cX.x0 = (st.particles i).x ∧
    ((loopRun force dtq st).2.1 i).cY.x0 = (st.particles i).y ∧
    ((loopRun force dtq st).2.1 i).cZ.x0 = (st.particles i).z ∧
    ((loopRun force dtq st).2.1 i).xpast = (st.particles i).xpast ∧
    ((loopRun force dtq st).2.1 i).ypast = (st.particles i).ypast ∧
    ((loopRun force dtq st).2.1 i).zpast = (st.particles i).zpast := by
  have hprep : (prepParticles dtq st i).cX.x0 = (st.particles i).x ∧
      (prepParticles dtq st i).cY.x0 = (st.particles i).y ∧
      (prepParticles dtq st i).cZ.x0 = (st.particles i).z ∧
      (prepParticles dtq st i).xpast = (st.particles i).xpast ∧
      (prepParticles dtq st i).ypast = (st.particles i).ypast ∧
      (prepParticles dtq st i).zpast = (st.particles i).zpast := by
    unfold prepParticles mapN
    simp only [hi, if_true, ite_true]
    unfold warmStartP
    split <;> exact ⟨rfl, rfl, rfl, rfl, rfl, rfl⟩
  have hloop : ∀ (φ : Particle → ℚ × (ℕ → ℕ → ℚ))
      (hpos : ∀ nd p, φ (predictPosP (mkCtx force dtq st) nd p) = φ p)
      (hvel : ∀ nd p, φ (predictVelP (mkCtx force dtq st) nd p) = φ p)
      (hacc : ∀ p a, φ (setAcc p a) = φ p)
      (hcopy : ∀ p, φ (copyAtP p) = φ p)
      (hupd : ∀ nd p, φ (nodeUpdP nd p) = φ p),
      φ ((loopRun force dtq st).2.1 i) = φ (prepParticles dtq st i) := by
    intro φ hpos hvel hacc hcopy hupd
    unfold loopRun
    exact pcRun_preserve φ _
      (fun ps j => iterBody_preserve φ _ ps j hpos hvel hacc hcopy hupd) _ _ _ _ _ _
  refine ⟨?_, ?_, ?_, ?_, ?_, ?_⟩
  · have := hloop (fun p => (p.cX.x0, p.xpast))
      (fun nd p => by unfold predictPosP; split <;> rfl) (fun nd p => rfl)
      (fun p a => rfl) (fun p => rfl)
      (fun nd p => by
        unfold nodeUpdP; dsimp only; rw [(nodeUpdBlk_frame nd p.cX).1])
    have hx := congrArg Prod.fst this
    dsimp at hx
    rw [hx]; exact hprep.1
  · have := hloop (fun p => (p.cY.x0, p.xpast))
      (fun nd p => by unfold predictPosP; split <;> rfl) (fun nd p => rfl)
      (fun p a => rfl) (fun p => rfl)
      (fun nd p => by
        unfold nodeUpdP; dsimp only; rw [(nodeUpdBlk_frame nd p.cY).1])
    have hx := congrArg Prod.fst this
    dsimp at hx
    rw [hx]; exact hprep.2.1
  · have := hloop (fun p => (p.cZ.x0, p.xpast))
      (fun nd p => by unfold predictPosP; split <;> rfl) (fun nd p => rfl)
      (fun p a => rfl) (fun p => rfl)
      (fun nd p => by
        unfold nodeUpdP; dsimp only; rw [(nodeUpdBlk_frame nd p.cZ).1])
    have hx := congrArg Prod.fst this
    dsimp at hx
    rw [hx]; exact hprep.2.2.1
  · have := hloop (fun p => (0, p.xpast))
      (fun nd p => by unfold predictPosP; split <;> rfl) (fun nd p => rfl)
      (fun p a => rfl) (fun p => rfl) (fun nd p => rfl)
    have hx := congrArg Prod.snd this
    dsimp at hx
    rw [hx]; exact hprep.2.2.2.1
  · have := hloop (fun p => (0, p.ypast))
      (fun nd p => by unfold predictPosP; split <;> rfl) (fun nd p => rfl)
      (fun p a => rfl) (fun p => rfl) (fun nd p => rfl)
    have hx := congrArg Prod.snd this
    dsimp at hx
    rw [hx]; exact hprep.2.2.2.2.1
  · have := hloop (fun p => (0, p.zpast))
      (fun nd p => by unfold predictPosP; split <;> rfl) (fun nd p => rfl)
      (fun p a => rfl) (fun p => rfl) (fun nd p => rfl)
    have hx := congrArg Prod.snd this
    dsimp at hx
    rw [hx]; exact hprep.2.2.2.2.2

/-- Helper: committing an in-class particle performs the compensated update on
all three components, writes the new `x0`/`v0` back into the particle, and
records `tdone = t + dt`, `dtdone = dt`. -/
theorem commitP_in_class (dtexpG : ℤ) (dtq tGlob : ℚ) (lvl sub : ℕ) (p : Particle)
    (hp : p.dtexp = dtexpG) :
    (commitP dtexpG dtq tGlob lvl sub p).tdone = tGlob + dtq ∧
    (commitP dtexpG dtq tGlob lvl sub p).dtdone = dtq ∧
    (commitP dtexpG dtq tGlob lvl sub p).x = (commitBlk dtq p.cX).x0 ∧
    (commitP dtexpG dtq tGlob lvl sub p).y = (commitBlk dtq p.cY).x0 ∧
    (commitP dtexpG dtq tGlob lvl sub p).z = (commitBlk dtq p.cZ).x0 ∧
    (commitP dtexpG dtq tGlob lvl sub p).vx = (commitBlk dtq p.cX).v0 ∧
    (commitP dtexpG dtq tGlob lvl sub p).vy = (commitBlk dtq p.cY).v0 ∧
    (commitP dtexpG dtq tGlob lvl sub p).vz = (commitBlk dtq p.cZ).v0 := by
  unfold commitP cachePast
  rw [if_pos hp]
  exact ⟨rfl, rfl, rfl, rfl, rfl, rfl, rfl, rfl⟩

/-- Helper: committing a particle of another class only restores its position
from the captured `x0` and caches that position into the past tables at
`[lvl][sub]`; velocity, `tdone` and `dtdone` are untouched. -/
theorem commitP_out_class (dtexpG : ℤ) (dtq tGlob : ℚ) (lvl sub : ℕ) (p : Particle)
    (hp : ¬p.dtexp = dtexpG) :
    (commitP dtexpG dtq tGlob lvl sub p).x = p.cX.x0 ∧
    (commitP dtexpG dtq tGlob lvl sub p).y = p.cY.x0 ∧
    (commitP dtexpG dtq tGlob lvl sub p).z = p.cZ.x0 ∧
    (commitP dtexpG dtq tGlob lvl sub p).vx = p.vx ∧
    (commitP dtexpG dtq tGlob lvl sub p).vy = p.vy ∧
    (commitP dtexpG dtq tGlob lvl sub p).vz = p.vz ∧
    (commitP dtexpG dtq tGlob lvl sub p).tdone = p.tdone ∧
    (commitP dtexpG dtq tGlob lvl sub p).dtdone = p.dtdone ∧
    (∀ l s2, (commitP dtexpG dtq tGlob lvl sub p).xpast l s2 =
      if l = lvl ∧ s2 = sub then p.cX.x0 else p.xpast l s2) ∧
    (∀ l s2, (commitP dtexpG dtq tGlob lvl sub p).ypast l s2 =
      if l = lvl ∧ s2 = sub then p.cY.x0 else p.ypast l s2) ∧
    (∀ l s2, (commitP dtexpG dtq tGlob lvl sub p).zpast l s2 =
      if l = lvl ∧ s2 = sub then p.cZ.x0 else p.zpast l s2) := by
  unfold commitP cachePast
  rw [if_neg hp]
  exact ⟨rfl, rfl, rfl, rfl, rfl, rfl, rfl, rfl, fun l s2 => rfl, fun l s2 => rfl,
    fun l s2 => rfl⟩

/-- C5: after a step, every particle of the class just advanced carries the
committed values: position and velocity are the `x0`/`v0` results of the
compensated commit applied to its loop-final components, and
`tdone = t + dt`, `dtdone = dt` are recorded, where `t` is the simulation time
at step entry and `dt` the step length tried by this call. -/
theorem step_in_class_commit (force : Force) (lg : LgOracle) (st : IState) (i : ℕ)
    (hi : i < st.n) (hcl : (st.particles i).dtexp = st.dtexp) :
    ((integrator_ias15_step force lg st).state.particles i).tdone = st.t + dtAtEntry st ∧
    ((integrator_ias15_step force lg st).state.particles i).dtdone = dtAtEntry st ∧
    ((integrator_ias15_step force lg st).state.particles i).x =
      (commitBlk (dtAtEntry st) ((loopRun force (dtAtEntry st) st).2.1 i).cX).x0 ∧
    ((integrator_ias15_step force lg st).state.particles i).y =
      (commitBlk (dtAtEntry st) ((loopRun force (dtAtEntry st) st).2.1 i).cY).x0 ∧
    ((integrator_ias15_step force lg st).state.particles i).z =
      (commitBlk (dtAtEntry st) ((loopRun force (dtAtEntry st) st).2.1 i).cZ).x0 ∧
    ((integrator_ias15_step force lg st).state.particles i).vx =
      (commitBlk (dtAtEntry st) ((loopRun force (dtAtEntry st) st).2.1 i).cX).v0 ∧
    ((integrator_ias15_step force lg st).state.particles i).vy =
      (commitBlk (dtAtEntry st) ((loopRun force (dtAtEntry st) st).2.1 i).cY).v0 ∧
    ((integrator_ias15_step force lg st).state.particles i).vz =
      (commitBlk (dtAtEntry st) ((loopRun force (dtAtEntry st) st).2.1 i).cZ).v0 := by
  have hcl2 : ((loopRun force (dtAtEntry st) st).2.1 i).dtexp = st.dtexp := by
    rw [loopRun_dtexp]; exact hcl
  have hcl3 : (commitP st.dtexp (dtAtEntry st) st.t (-st.dtexp).toNat
      (st.dtexp_substep (-st.dtexp).toNat)
      ((loopRun force (dtAtEntry st) st).2.1 i)).dtexp = st.dtexp := by
    rw [commitP_dtexp]; exact hcl2
  have C := commitP_in_class st.dtexp (dtAtEntry st) st.t (-st.dtexp).toNat
    (st.dtexp_substep (-st.dtexp).toNat) _ hcl2
  rw [step_particles_eq force lg st i hi]
  dsimp only
  by_cases h1 : 0 < st.integrator_epsilon
  · simp only [h1, if_true, ite_true, if_pos hcl3]
    rcases controllerP_fields lg (dtAtEntry st)
      (commitP st.dtexp (dtAtEntry st) st.t (-st.dtexp).toNat
        (st.dtexp_substep (-st.dtexp).toNat)
        ((loopRun force (dtAtEntry st) st).2.1 i)) with
      ⟨cfx, cfy, cfz, cfvx, cfvy, cfvz, cftd, cfdd, _⟩
    rw [cfx, cfy, cfz, cfvx, cfvy, cfvz, cftd, cfdd]
    exact ⟨C.1, C.2.1, C.2.2.1, C.2.2.2.1, C.2.2.2.2.1, C.2.2.2.2.2.1,
      C.2.2.2.2.2.2.1, C.2.2.2.2.2.2.2⟩
  · simp only [h1, if_false, ite_false]
    exact ⟨C.1, C.2.1, C.2.2.1, C.2.2.2.1, C.2.2.2.2.1, C.2.2.2.2.2.1,
      C.2.2.2.2.2.2.1, C.2.2.2.2.2.2.2⟩

/-- Witness for C5 at a concrete one-particle class-0 state. -/
theorem step_in_class_commit_witness :
    (((integrator_ias15_step zeroForce zeroLg { n := 1, integrator_max_dt := 1 }).state.particles 0).tdone =
      ({ n := 1, integrator_max_dt := 1 } : IState).t +
        dtAtEntry { n := 1, integrator_max_dt := 1 } ∧
    ((integrator_ias15_step zeroForce zeroLg { n := 1, integrator_max_dt := 1 }).state.particles 0).dtdone =
      dtAtEntry { n := 1, integrator_max_dt := 1 } ∧
    ((integrator_ias15_step zeroForce zeroLg { n := 1, integrator_max_dt := 1 }).state.particles 0).x =
      (commitBlk (dtAtEntry { n := 1, integrator_max_dt := 1 })
        ((loopRun zeroForce (dtAtEntry { n := 1, integrator_max_dt := 1 })
          { n := 1, integrator_max_dt := 1 }).2.1 0).cX).x0 ∧
    ((integrator_ias15_step zeroForce zeroLg { n := 1, integrator_max_dt := 1 }).state.particles 0).y =
      (commitBlk (dtAtEntry { n := 1, integrator_max_dt := 1 })
        ((loopRun zeroForce (dtAtEntry { n := 1, integrator_max_dt := 1 })
          { n := 1, integrator_max_dt := 1 }).2.1 0).cY).x0 ∧
    ((integrator_ias15_step zeroForce zeroLg { n := 1, integrator_max_dt := 1 }).state.particles 0).z =
      (commitBlk (dtAtEntry { n := 1, integrator_max_dt := 1 })
        ((loopRun zeroForce (dtAtEntry { n := 1, integrator_max_dt := 1 })
          { n := 1, integrator_max_dt := 1 }).2.1 0).cZ).x0 ∧
    ((integrator_ias15_step zeroForce zeroLg { n := 1, integrator_max_dt := 1 }).state.particles 0).vx =
      (commitBlk (dtAtEntry { n := 1, integrator_max_dt := 1 })
        ((loopRun zeroForce (dtAtEntry { n := 1, integrator_max_dt := 1 })
          { n := 1, integrator_max_dt := 1 }).2.1 0).cX).v0 ∧
    ((integrator_ias15_step zeroForce zeroLg { n := 1, integrator_max_dt := 1 }).state.particles 0).vy =
      (commitBlk (dtAtEntry { n := 1, integrator_max_dt := 1 })
        ((loopRun zeroForce (dtAtEntry { n := 1, integrator_max_dt := 1 })
          { n := 1, integrator_max_dt := 1 }).2.1 0).cY).v0 ∧
    ((integrator_ias15_step zeroForce zeroLg { n := 1, integrator_max_dt := 1 }).state.particles 0).vz =
      (commitBlk (dtAtEntry { n := 1, integrator_max_dt := 1 })
        ((loopRun zeroForce (dtAtEntry { n := 1, integrator_max_dt := 1 })
          { n := 1, integrator_max_dt := 1 }).2.1 0).cZ).v0) :=
  step_in_class_commit zeroForce zeroLg { n := 1, integrator_max_dt := 1 } 0
    (by decide) (by decide)

/-- C6: a step leaves the position of every particle outside the current class
unchanged (it is restored from the `x0` captured at step entry, the particle
having been mutated only temporarily for the force evaluations), and caches
that position into `xpast`/`ypast`/`zpast` at `[-dtexp][dtexp_substep[-dtexp]]`,
leaving every other past-table entry unchanged. -/
theorem step_out_of_class_position (force : Force) (lg : LgOracle) (st : IState) (i : ℕ)
    (hi : i < st.n) (hcl : (st.particles i).dtexp ≠ st.dtexp) :
    ((integrator_ias15_step force lg st).state.particles i).x = (st.particles i).x ∧
    ((integrator_ias15_step force lg st).state.particles i).y = (st.particles i).y ∧
    ((integrator_ias15_step force lg st).state.particles i).z = (st.particles i).z ∧
    (∀ l s2, ((integrator_ias15_step force lg st).state.particles i).xpast l s2 =
      if l = (-st.dtexp).toNat ∧ s2 = st.dtexp_substep (-st.dtexp).toNat
      then (st.particles i).x else (st.particles i).xpast l s2) ∧
    (∀ l s2, ((integrator_ias15_step force lg st).state.particles i).ypast l s2 =
      if l = (-st.dtexp).toNat ∧ s2 = st.dtexp_substep (-st.dtexp).toNat
      then (st.particles i).y else (st.particles i).ypast l s2) ∧
    (∀ l s2, ((integrator_ias15_step force lg st).state.particles i).zpast l s2 =
      if l = (-st.dtexp).toNat ∧ s2 = st.dtexp_substep (-st.dtexp).toNat
      then (st.particles i).z else (st.particles i).zpast l s2) := by
  have hcl2 : ¬((loopRun force (dtAtEntry st) st).2.1 i).dtexp = st.dtexp := by
    rw [loopRun_dtexp]; exact hcl
  have hcl3 : ¬(commitP st.dtexp (dtAtEntry st) st.t (-st.dtexp).toNat
      (st.dtexp_substep (-st.dtexp).toNat)
      ((loopRun force (dtAtEntry st) st).2.1 i)).dtexp = st.dtexp := by
    rw [commitP_dtexp]; exact hcl2
  obtain ⟨hx0, hy0, hz0, hxp, hyp, hzp⟩ := loopRun_x0 force (dtAtEntry st) st i hi
  obtain ⟨ox, oy, oz, _, _, _, _, _, oxp, oyp, ozp⟩ :=
    commitP_out_class st.dtexp (dtAtEntry st) st.t (-st.dtexp).toNat
      (st.dtexp_substep (-st.dtexp).toNat) _ hcl2
  rw [step_particles_eq force lg st i hi]
  dsimp only
  have key : ∀ q, q = commitP st.dtexp (dtAtEntry st) st.t (-st.dtexp).toNat
      (st.dtexp_substep (-st.dtexp).toNat) ((loopRun force (dtAtEntry st) st).2.1 i) →
      q.x = (st.particles i).x ∧ q.y = (st.particles i).y ∧ q.z = (st.particles i).z ∧
      (∀ l s2, q.xpast l s2 =
        if l = (-st.dtexp).toNat ∧ s2 = st.dtexp_substep (-st.dtexp).toNat
        then (st.particles i).x else (st.particles i).xpast l s2) ∧
      (∀ l s2, q.ypast l s2 =
        if l = (-st.dtexp).toNat ∧ s2 = st.dtexp_substep (-st.dtexp).toNat
        then (st.particles i).y else (st.particles i).ypast l s2) ∧
      (∀ l s2, q.zpast l s2 =
        if l = (-st.dtexp).toNat ∧ s2 = st.dtexp_substep (-st.dtexp).toNat
        then (st.particles i).z else (st.particles i).zpast l s2) := by
    intro q hq
    subst hq
    refine ⟨ox.trans hx0, oy.trans hy0, oz.trans hz0, ?_, ?_, ?_⟩
    · intro l s2
      rw [oxp l s2, hx0, hxp]
    · intro l s2
      rw [oyp l s2, hy0, hyp]
    · intro l s2
      rw [ozp l s2, hz0, hzp]
  by_cases h1 : 0 < st.integrator_epsilon
  · simp only [h1, if_true, ite_true, if_neg hcl3]
    exact key _ rfl
  · simp only [h1, if_false, ite_false]
    exact key _ rfl

/-- Witness for C6 at a concrete one-particle state whose particle sits in
class `-2` while the global class is `0`. -/
theorem step_out_of_class_position_witness :
    (((integrator_ias15_step zeroForce zeroLg { n := 1, integrator_max_dt := 1, particles := fun _ => { dtexp := -2 } }).state.particles 0).x =
      (({ n := 1, integrator_max_dt := 1, particles := fun _ => { dtexp := -2 } } : IState).particles 0).x ∧
    ((integrator_ias15_step zeroForce zeroLg { n := 1, integrator_max_dt := 1, particles := fun _ => { dtexp := -2 } }).state.particles 0).y =
      (({ n := 1, integrator_max_dt := 1, particles := fun _ => { dtexp := -2 } } : IState).particles 0).y ∧
    ((integrator_ias15_step zeroForce zeroLg { n := 1, integrator_max_dt := 1, particles := fun _ => { dtexp := -2 } }).state.particles 0).z =
      (({ n := 1, integrator_max_dt := 1, particles := fun _ => { dtexp := -2 } } : IState).particles 0).z ∧
    (∀ l s2, ((integrator_ias15_step zeroForce zeroLg { n := 1, integrator_max_dt := 1, particles := fun _ => { dtexp := -2 } }).state.particles 0).xpast l s2 =
      if l = (-({ n := 1, integrator_max_dt := 1, particles := fun _ => { dtexp := -2 } } : IState).dtexp).toNat ∧
          s2 = ({ n := 1, integrator_max_dt := 1, particles := fun _ => { dtexp := -2 } } : IState).dtexp_substep
            (-({ n := 1, integrator_max_dt := 1, particles := fun _ => { dtexp := -2 } } : IState).dtexp).toNat
      then (({ n := 1, integrator_max_dt := 1, particles := fun _ => { dtexp := -2 } } : IState).particles 0).x
      else (({ n := 1, integrator_max_dt := 1, particles := fun _ => { dtexp := -2 } } : IState).particles 0).xpast l s2) ∧
    (∀ l s2, ((integrator_ias15_step zeroForce zeroLg { n := 1, integrator_max_dt := 1, particles := fun _ => { dtexp := -2 } }).state.particles 0).ypast l s2 =
      if l = (-({ n := 1, integrator_max_dt := 1, particles := fun _ => { dtexp := -2 } } : IState).dtexp).toNat ∧
          s2 = ({ n := 1, integrator_max_dt := 1, particles := fun _ => { dtexp := -2 } } : IState).dtexp_substep
            (-({ n := 1, integrator_max_dt := 1, particles := fun _ => { dtexp := -2 } } : IState).dtexp).toNat
      then (({ n := 1, integrator_max_dt := 1, particles := fun _ => { dtexp := -2 } } : IState).particles 0).y
      else (({ n := 1, integrator_max_dt := 1, particles := fun _ => { dtexp := -2 } } : IState).particles 0).ypast l s2) ∧
    (∀ l s2, ((integrator_ias15_step zeroForce zeroLg { n := 1, integrator_max_dt := 1, particles := fun _ => { dtexp := -2 } }).state.particles 0).zpast l s2 =
      if l = (-({ n := 1, integrator_max_dt := 1, particles := fun _ => { dtexp := -2 } } : IState).dtexp).toNat ∧
          s2 = ({ n := 1, integrator_max_dt := 1, particles := fun _ => { dtexp := -2 } } : IState).dtexp_substep
            (-({ n := 1, integrator_max_dt := 1, particles := fun _ => { dtexp := -2 } } : IState).dtexp).toNat
      then (({ n := 1, integrator_max_dt := 1, particles := fun _ => { dtexp := -2 } } : IState).particles 0).z
      else (({ n := 1, integrator_max_dt := 1, particles := fun _ => { dtexp := -2 } } : IState).particles 0).zpast l s2)) :=
  step_out_of_class_position zeroForce zeroLg
    { n := 1, integrator_max_dt := 1, particles := fun _ => { dtexp := -2 } } 0
    (by decide) (by decide)

/-- Helper: once the loop body has run, the store the loop returns is the
output of some body application. -/
theorem pcRun_shape (body : (ℕ → Particle) → (ℕ → Particle) × ℚ) :
    ∀ (fuel : ℕ) (pce pceLast : ℚ) (it : ℕ) (prev : ℕ → Particle),
      ∃ q, (pcRun body fuel pce pceLast it (body prev).1).2.1 = (body q).1 := by
  intro fuel
  induction fuel with
  | zero => intro pce pceLast it prev; exact ⟨prev, rfl⟩
  | succ fuel ih =>
    intro pce pceLast it prev
    by_cases h1 : pce < convergedBound
    · exact ⟨prev, by simp [pcRun, h1]⟩
    · by_cases h2 : 2 < it ∧ pceLast ≤ pce
      · exact ⟨prev, by simp [pcRun, h1, h2]⟩
      · by_cases h3 : 12 ≤ it
        · exact ⟨prev, by simp [pcRun, h1, h2, h3]⟩
        · obtain ⟨q, hq⟩ := ih (body (body prev).1).2 pce (it + 1) (body prev).1
          refine ⟨q, ?_⟩
          simp only [pcRun, h1, h2, h3, if_false]
          exact hq

/-- Helper: the loop-final store of every step is the output of a full
corrector iteration (the body runs at least once: the entry metric `1e300`
fails every exit guard). -/
theorem loopRun_shape (force : Force) (dtq : ℚ) (st : IState) :
    ∃ prev, (loopRun force dtq st).2.1 = (iterBody (mkCtx force dtq st) prev).1 := by
  unfold loopRun
  have h1 : ¬((10 : ℚ) ^ 300 < convergedBound) := by
    unfold convergedBound
    norm_num
  have hstep : pcRun (iterBody (mkCtx force dtq st)) 13 (10 ^ 300) 2 0 (prepParticles dtq st) =
      pcRun (iterBody (mkCtx force dtq st)) 12
        (iterBody (mkCtx force dtq st) (prepParticles dtq st)).2 (10 ^ 300) 1
        (iterBody (mkCtx force dtq st) (prepParticles dtq st)).1 := by
    simp [pcRun, h1]
  rw [hstep]
  exact pcRun_shape (iterBody (mkCtx force dtq st)) 12 _ _ 1 (prepParticles dtq st)

/-- Helper: the velocity-prediction pass inside a corrector node overwrites
the velocity of every particle with the node formula, independent of its
class, whenever the velocity-dependent path is active. -/
theorem nodePass_velocity (cx : Ctx) (hvd : cx.velDep = true) (nd : ℕ)
    (s : (ℕ → Particle) × ℚ) (j : ℕ) (hj : j < cx.n) :
    ((nodePass cx nd s).1 j).vx = velNode cx.dtq nd ((s.1 j).cX) ∧
    ((nodePass cx nd s).1 j).vy = velNode cx.dtq nd ((s.1 j).cY) ∧
    ((nodePass cx nd s).1 j).vz = velNode cx.dtq nd ((s.1 j).cZ) := by
  have hcX : ∀ p, (predictPosP cx nd p).cX = p.cX := by
    intro p; unfold predictPosP; split <;> rfl
  have hcY : ∀ p, (predictPosP cx nd p).cY = p.cY := by
    intro p; unfold predictPosP; split <;> rfl
  have hcZ : ∀ p, (predictPosP cx nd p).cZ = p.cZ := by
    intro p; unfold predictPosP; split <;> rfl
  have hupdx : ∀ (j2 : ℕ) (p : Particle),
      (if p.dtexp = cx.dtexpG then nodeUpdP nd p else p).vx = p.vx := by
    intro j2 p; split <;> rfl
  have hupdy : ∀ (j2 : ℕ) (p : Particle),
      (if p.dtexp = cx.dtexpG then nodeUpdP nd p else p).vy = p.vy := by
    intro j2 p; split <;> rfl
  have hupdz : ∀ (j2 : ℕ) (p : Particle),
      (if p.dtexp = cx.dtexpG then nodeUpdP nd p else p).vz = p.vz := by
    intro j2 p; split <;> rfl
  have hcopyx : ∀ (j2 : ℕ) (p : Particle),
      (if p.dtexp = cx.dtexpG then copyAtP p else p).vx = p.vx := by
    intro j2 p; split <;> rfl
  have hcopyy : ∀ (j2 : ℕ) (p : Particle),
      (if p.dtexp = cx.dtexpG then copyAtP p else p).vy = p.vy := by
    intro j2 p; split <;> rfl
  have hcopyz : ∀ (j2 : ℕ) (p : Particle),
      (if p.dtexp = cx.dtexpG then copyAtP p else p).vz = p.vz := by
    intro j2 p; split <;> rfl
  have haccx : ∀ (F : ℕ → ℚ × ℚ × ℚ) (j2 : ℕ) (p : Particle),
      (setAcc p (F j2)).vx = p.vx := fun _ _ _ => rfl
  have haccy : ∀ (F : ℕ → ℚ × ℚ × ℚ) (j2 : ℕ) (p : Particle),
      (setAcc p (F j2)).vy = p.vy := fun _ _ _ => rfl
  have haccz : ∀ (F : ℕ → ℚ × ℚ × ℚ) (j2 : ℕ) (p : Particle),
      (setAcc p (F j2)).vz = p.vz := fun _ _ _ => rfl
  refine ⟨?_, ?_, ?_⟩
  · unfold nodePass
    dsimp only
    simp only [hvd, if_true, ite_true]
    rw [mapN_preserve (fun p => p.vx) _ _ _ _ hupdx,
      mapN_preserve (fun p => p.vx) _ _ _ _ hcopyx,
      mapN_preserve (fun p => p.vx) _ _ _ _ (haccx _)]
    unfold mapN
    rw [if_pos hj, if_pos hj]
    show velNode cx.dtq nd ((predictPosP cx nd (s.1 j)).cX) = _
    rw [hcX]
  · unfold nodePass
    dsimp only
    simp only [hvd, if_true, ite_true]
    rw [mapN_preserve (fun p => p.vy) _ _ _ _ hupdy,
      mapN_preserve (fun p => p.vy) _ _ _ _ hcopyy,
      mapN_preserve (fun p => p.vy) _ _ _ _ (haccy _)]
    unfold mapN
    rw [if_pos hj, if_pos hj]
    show velNode cx.dtq nd ((predictPosP cx nd (s.1 j)).cY) = _
    rw [hcY]
  · unfold nodePass
    dsimp only
    simp only [hvd, if_true, ite_true]
    rw [mapN_preserve (fun p => p.vz) _ _ _ _ hupdz,
      mapN_preserve (fun p => p.vz) _ _ _ _ hcopyz,
      mapN_preserve (fun p => p.vz) _ _ _ _ (haccz _)]
    unfold mapN
    rw [if_pos hj, if_pos hj]
    show velNode cx.dtq nd ((predictPosP cx nd (s.1 j)).cZ) = _
    rw [hcZ]

/-- C9: with the additional-forces hook installed and the velocity-dependent
flag set, every corrector node pass overwrites the velocity of every particle
(not only the current class) with the node prediction before the force
evaluation; at commit only in-class particles get their velocity restored
(from the committed `v0`), so a particle outside the current class leaves the
step with the node-7 prediction of the final corrector iteration as its
velocity rather than its entry velocity. -/
theorem velocity_prediction_leaks_out_of_class (force : Force) (lg : LgOracle)
    (st : IState) (i : ℕ)
    (haf : st.problem_additional_forces = true)
    (hvd : st.integrator_force_is_velocitydependent = true)
    (hi : i < st.n)
    (hcl : (st.particles i).dtexp ≠ st.dtexp) :
    (∀ (s : (ℕ → Particle) × ℚ) (nd j : ℕ), j < st.n →
      ((nodePass (mkCtx force (dtAtEntry st) st) nd s).1 j).vx =
        velNode (dtAtEntry st) nd ((s.1 j).cX) ∧
      ((nodePass (mkCtx force (dtAtEntry st) st) nd s).1 j).vy =
        velNode (dtAtEntry st) nd ((s.1 j).cY) ∧
      ((nodePass (mkCtx force (dtAtEntry st) st) nd s).1 j).vz =
        velNode (dtAtEntry st) nd ((s.1 j).cZ)) ∧
    ((integrator_ias15_step force lg st).state.particles i).vx =
      ((loopRun force (dtAtEntry st) st).2.1 i).vx ∧
    ((integrator_ias15_step force lg st).state.particles i).vy =
      ((loopRun force (dtAtEntry st) st).2.1 i).vy ∧
    ((integrator_ias15_step force lg st).state.particles i).vz =
      ((loopRun force (dtAtEntry st) st).2.1 i).vz ∧
    (∃ prev,
      ((integrator_ias15_step force lg st).state.particles i).vx =
        velNode (dtAtEntry st) 7
          (((List.foldl (fun s2 nd => nodePass (mkCtx force (dtAtEntry st) st) nd s2)
            (prev, 0) [1, 2, 3, 4, 5, 6]).1 i).cX) ∧
      ((integrator_ias15_step force lg st).state.particles i).vy =
        velNode (dtAtEntry st) 7
          (((List.foldl (fun s2 nd => nodePass (mkCtx force (dtAtEntry st) st) nd s2)
            (prev, 0) [1, 2, 3, 4, 5, 6]).1 i).cY) ∧
      ((integrator_ias15_step force lg st).state.particles i).vz =
        velNode (dtAtEntry st) 7
          (((List.foldl (fun s2 nd => nodePass (mkCtx force (dtAtEntry st) st) nd s2)
            (prev, 0) [1, 2, 3, 4, 5, 6]).1 i).cZ)) ∧
    (∀ j, j < st.n → (st.particles j).dtexp = st.dtexp →
      ((integrator_ias15_step force lg st).state.particles j).vx =
        (commitBlk (dtAtEntry st) ((loopRun force (dtAtEntry st) st).2.1 j).cX).v0 ∧
      ((integrator_ias15_step force lg st).state.particles j).vy =
        (commitBlk (dtAtEntry st) ((loopRun force (dtAtEntry st) st).2.1 j).cY).v0 ∧
      ((integrator_ias15_step force lg st).state.particles j).vz =
        (commitBlk (dtAtEntry st) ((loopRun force (dtAtEntry st) st).2.1 j).cZ).v0) := by
  have hvd2 : (mkCtx force (dtAtEntry st) st).velDep = true := by
    unfold mkCtx
    dsimp only
    rw [haf, hvd]
    rfl
  have hcl2 : ¬((loopRun force (dtAtEntry st) st).2.1 i).dtexp = st.dtexp := by
    rw [loopRun_dtexp]; exact hcl
  have hcl3 : ¬(commitP st.dtexp (dtAtEntry st) st.t (-st.dtexp).toNat
      (st.dtexp_substep (-st.dtexp).toNat)
      ((loopRun force (dtAtEntry st) st).2.1 i)).dtexp = st.dtexp := by
    rw [commitP_dtexp]; exact hcl2
  obtain ⟨_, _, _, ovx, ovy, ovz, _, _, _, _, _⟩ :=
    commitP_out_class st.dtexp (dtAtEntry st) st.t (-st.dtexp).toNat
      (st.dtexp_substep (-st.dtexp).toNat) _ hcl2
  have hkeep : ((integrator_ias15_step force lg st).state.particles i).vx =
      ((loopRun force (dtAtEntry st) st).2.1 i).vx ∧
      ((integrator_ias15_step force lg st).state.particles i).vy =
      ((loopRun force (dtAtEntry st) st).2.1 i).vy ∧
      ((integrator_ias15_step force lg st).state.particles i).vz =
      ((loopRun force (dtAtEntry st) st).2.1 i).vz := by
    rw [step_particles_eq force lg st i hi]
    dsimp only
    by_cases h1 : 0 < st.integrator_epsilon
    · simp only [h1, if_true, ite_true, if_neg hcl3]
      exact ⟨ovx, ovy, ovz⟩
    · simp only [h1, if_false, ite_false]
      exact ⟨ovx, ovy, ovz⟩
  refine ⟨fun s nd j hj => nodePass_velocity _ hvd2 nd s j hj,
    hkeep.1, hkeep.2.1, hkeep.2.2, ?_, ?_⟩
  · obtain ⟨prev, hprev⟩ := loopRun_shape force (dtAtEntry st) st
    refine ⟨prev, ?_, ?_, ?_⟩
    · rw [hkeep.1, hprev]
      have hib : (iterBody (mkCtx force (dtAtEntry st) st) prev).1 =
          (nodePass (mkCtx force (dtAtEntry st) st) 7
            (List.foldl (fun s2 nd => nodePass (mkCtx force (dtAtEntry st) st) nd s2)
              (prev, 0) [1, 2, 3, 4, 5, 6])).1 := rfl
      rw [hib]
      exact (nodePass_velocity _ hvd2 7 _ i hi).1
    · rw [hkeep.2.1, hprev]
      have hib : (iterBody (mkCtx force (dtAtEntry st) st) prev).1 =
          (nodePass (mkCtx force (dtAtEntry st) st) 7
            (List.foldl (fun s2 nd => nodePass (mkCtx force (dtAtEntry st) st) nd s2)
              (prev, 0) [1, 2, 3, 4, 5, 6])).1 := rfl
      rw [hib]
      exact (nodePass_velocity _ hvd2 7 _ i hi).2.1
    · rw [hkeep.2.2, hprev]
      have hib : (iterBody (mkCtx force (dtAtEntry st) st) prev).1 =
          (nodePass (mkCtx force (dtAtEntry st) st) 7
            (List.foldl (fun s2 nd => nodePass (mkCtx force (dtAtEntry st) st) nd s2)
              (prev, 0) [1, 2, 3, 4, 5, 6])).1 := rfl
      rw [hib]
      exact (nodePass_velocity _ hvd2 7 _ i hi).2.2
  · intro j hj hclj
    have hclj2 : ((loopRun force (dtAtEntry st) st).2.1 j).dtexp = st.dtexp := by
      rw [loopRun_dtexp]; exact hclj
    have hclj3 : (commitP st.dtexp (dtAtEntry st) st.t (-st.dtexp).toNat
        (st.dtexp_substep (-st.dtexp).toNat)
        ((loopRun force (dtAtEntry st) st).2.1 j)).dtexp = st.dtexp := by
      rw [commitP_dtexp]; exact hclj2
    have C := commitP_in_class st.dtexp (dtAtEntry st) st.t (-st.dtexp).toNat
      (st.dtexp_substep (-st.dtexp).toNat) _ hclj2
    rw [step_particles_eq force lg st j hj]
    dsimp only
    by_cases h1 : 0 < st.integrator_epsilon
    · simp only [h1, if_true, ite_true, if_pos hclj3]
      rcases controllerP_fields lg (dtAtEntry st)
        (commitP st.dtexp (dtAtEntry st) st.t (-st.dtexp).toNat
          (st.dtexp_substep (-st.dtexp).toNat)
          ((loopRun force (dtAtEntry st) st).2.1 j)) with
        ⟨_, _, _, cfvx, cfvy, cfvz, _⟩
      rw [cfvx, cfvy, cfvz]
      exact ⟨C.2.2.2.2.2.1, C.2.2.2.2.2.2.1, C.2.2.2.2.2.2.2⟩
    · simp only [h1, if_false, ite_false]
      exact ⟨C.2.2.2.2.2.1, C.2.2.2.2.2.2.1, C.2.2.2.2.2.2.2⟩

/-- Witness for C9 at the one-particle velocity-dependent state `velDepSt`. -/
theorem velocity_prediction_leaks_out_of_class_witness :
    ((∀ (s : (ℕ → Particle) × ℚ) (nd j : ℕ), j < velDepSt.n →
      ((nodePass (mkCtx zeroForce (dtAtEntry velDepSt) velDepSt) nd s).1 j).vx =
        velNode (dtAtEntry velDepSt) nd ((s.1 j).cX) ∧
      ((nodePass (mkCtx zeroForce (dtAtEntry velDepSt) velDepSt) nd s).1 j).vy =
        velNode (dtAtEntry velDepSt) nd ((s.1 j).cY) ∧
      ((nodePass (mkCtx zeroForce (dtAtEntry velDepSt) velDepSt) nd s).1 j).vz =
        velNode (dtAtEntry velDepSt) nd ((s.1 j).cZ)) ∧
    ((integrator_ias15_step zeroForce zeroLg velDepSt).state.particles 0).vx =
      ((loopRun zeroForce (dtAtEntry velDepSt) velDepSt).2.1 0).vx ∧
    ((integrator_ias15_step zeroForce zeroLg velDepSt).state.particles 0).vy =
      ((loopRun zeroForce (dtAtEntry velDepSt) velDepSt).2.1 0).vy ∧
    ((integrator_ias15_step zeroForce zeroLg velDepSt).state.particles 0).vz =
      ((loopRun zeroForce (dtAtEntry velDepSt) velDepSt).2.1 0).vz ∧
    (∃ prev,
      ((integrator_ias15_step zeroForce zeroLg velDepSt).state.particles 0).vx =
        velNode (dtAtEntry velDepSt) 7
          (((List.foldl (fun s2 nd => nodePass (mkCtx zeroForce (dtAtEntry velDepSt) velDepSt) nd s2)
            (prev, 0) [1, 2, 3, 4, 5, 6]).1 0).cX) ∧
      ((integrator_ias15_step zeroForce zeroLg velDepSt).state.particles 0).vy =
        velNode (dtAtEntry velDepSt) 7
          (((List.foldl (fun s2 nd => nodePass (mkCtx zeroForce (dtAtEntry velDepSt) velDepSt) nd s2)
            (prev, 0) [1, 2, 3, 4, 5, 6]).1 0).cY) ∧
      ((integrator_ias15_step zeroForce zeroLg velDepSt).state.particles 0).vz =
        velNode (dtAtEntry velDepSt) 7
          (((List.foldl (fun s2 nd => nodePass (mkCtx zeroForce (dtAtEntry velDepSt) velDepSt) nd s2)
            (prev, 0) [1, 2, 3, 4, 5, 6]).1 0).cZ)) ∧
    (∀ j, j < velDepSt.n → (velDepSt.particles j).dtexp = velDepSt.dtexp →
      ((integrator_ias15_step zeroForce zeroLg velDepSt).state.particles j).vx =
        (commitBlk (dtAtEntry velDepSt) ((loopRun zeroForce (dtAtEntry velDepSt) velDepSt).2.1 j).cX).v0 ∧
      ((integrator_ias15_step zeroForce zeroLg velDepSt).state.particles j).vy =
        (commitBlk (dtAtEntry velDepSt) ((loopRun zeroForce (dtAtEntry velDepSt) velDepSt).2.1 j).cY).v0 ∧
      ((integrator_ias15_step zeroForce zeroLg velDepSt).state.particles j).vz =
        (commitBlk (dtAtEntry velDepSt) ((loopRun zeroForce (dtAtEntry velDepSt) velDepSt).2.1 j).cZ).v0)) :=
  velocity_prediction_leaks_out_of_class zeroForce zeroLg velDepSt 0
    rfl rfl (by decide) (by decide)

/-- Helper: on a zero-shaped component with zero `at`, every corrector node
update is a no-op and reports a zero change. -/
theorem zb_nodeUpd (nd : ℕ) (a v : ℚ) (bl : Blk) (hz : ZB a v bl) (hatt : bl.att = 0) :
    ZB a v (nodeUpdBlk nd bl).1 ∧ (nodeUpdBlk nd bl).1.att = 0 ∧ (nodeUpdBlk nd bl).2 = 0 := by
  obtain ⟨hb0, hb1, hb2, hb3, hb4, hb5, hb6, hg0, hg1, hg2, hg3, hg4, hg5, hg6,
    ha0, hcsx, hcsv, hx0, hv0⟩ := hz
  unfold ZB
  rcases nd with _ | _ | _ | _ | _ | _ | _ | _ | nd <;>
    simp [nodeUpdBlk, hb0, hb1, hb2, hb3, hb4, hb5, hb6, hg0, hg1, hg2, hg3, hg4, hg5,
      hg6, ha0, hcsx, hcsv, hx0, hv0, hatt]


/-- Helper: in the free-drift configuration (one class-0 particle, no
velocity-dependent path, zero force) a corrector node pass keeps the mid-loop
shape, leaves the convergence metric untouched, and leaves zero acceleration
and a zero `at` copy behind. -/
theorem drift_nodePass (n2 : ℕ) (dtq t2 : ℚ) (force : Force)
    (kq : ℚ) (s : (ℕ → Particle) × ℚ) (nd : ℕ)
    (hn : n2 = 1) (hf : force = zeroForce)
    (hm : MidInv kq s.1) :
    MidInv kq (nodePass ⟨n2, dtq, t2, 0, false, force⟩ nd s).1 ∧
    (nodePass ⟨n2, dtq, t2, 0, false, force⟩ nd s).2 = s.2 ∧
    ((nodePass ⟨n2, dtq, t2, 0, false, force⟩ nd s).1 0).cX.att = 0 ∧
    ((nodePass ⟨n2, dtq, t2, 0, false, force⟩ nd s).1 0).cY.att = 0 ∧
    ((nodePass ⟨n2, dtq, t2, 0, false, force⟩ nd s).1 0).cZ.att = 0 ∧
    ((nodePass ⟨n2, dtq, t2, 0, false, force⟩ nd s).1 0).ax = 0 ∧
    ((nodePass ⟨n2, dtq, t2, 0, false, force⟩ nd s).1 0).ay = 0 ∧
    ((nodePass ⟨n2, dtq, t2, 0, false, force⟩ nd s).1 0).az = 0 := by
  subst hn hf
  obtain ⟨hde, hzx, hzy, hzz⟩ := hm
  have hdP : ∀ nd2, (predictPosP ⟨1, dtq, t2, 0, false, zeroForce⟩ nd2 (s.1 0)).dtexp = 0 := by
    intro nd2; unfold predictPosP; split <;> exact hde
  have hdsa : ∀ nd2, (setAcc (predictPosP ⟨1, dtq, t2, 0, false, zeroForce⟩ nd2 (s.1 0))
      ((0 : ℚ), (0 : ℚ), (0 : ℚ))).dtexp = 0 := hdP
  have hdcp : ∀ nd2, (copyAtP (setAcc (predictPosP ⟨1, dtq, t2, 0, false, zeroForce⟩ nd2 (s.1 0))
      ((0 : ℚ), (0 : ℚ), (0 : ℚ)))).dtexp = 0 := hdP
  have hcX : ∀ nd2, (predictPosP ⟨1, dtq, t2, 0, false, zeroForce⟩ nd2 (s.1 0)).cX = (s.1 0).cX := by
    intro nd2; unfold predictPosP; split <;> rfl
  have hcY : ∀ nd2, (predictPosP ⟨1, dtq, t2, 0, false, zeroForce⟩ nd2 (s.1 0)).cY = (s.1 0).cY := by
    intro nd2; unfold predictPosP; split <;> rfl
  have hcZ : ∀ nd2, (predictPosP ⟨1, dtq, t2, 0, false, zeroForce⟩ nd2 (s.1 0)).cZ = (s.1 0).cZ := by
    intro nd2; unfold predictPosP; split <;> rfl
  have hq4X : ∀ nd2, (copyAtP (setAcc (predictPosP ⟨1, dtq, t2, 0, false, zeroForce⟩ nd2 (s.1 0))
      (0, 0, 0))).cX = { (s.1 0).cX with att := (0 : ℚ) } := by
    intro nd2
    show { (predictPosP ⟨1, dtq, t2, 0, false, zeroForce⟩ nd2 (s.1 0)).cX
      with att := (0 : ℚ) } = _
    rw [hcX]
  have hq4Y : ∀ nd2, (copyAtP (setAcc (predictPosP ⟨1, dtq, t2, 0, false, zeroForce⟩ nd2 (s.1 0))
      (0, 0, 0))).cY = { (s.1 0).cY with att := (0 : ℚ) } := by
    intro nd2
    show { (predictPosP ⟨1, dtq, t2, 0, false, zeroForce⟩ nd2 (s.1 0)).cY
      with att := (0 : ℚ) } = _
    rw [hcY]
  have hq4Z : ∀ nd2, (copyAtP (setAcc (predictPosP ⟨1, dtq, t2, 0, false, zeroForce⟩ nd2 (s.1 0))
      (0, 0, 0))).cZ = { (s.1 0).cZ with att := (0 : ℚ) } := by
    intro nd2
    show { (predictPosP ⟨1, dtq, t2, 0, false, zeroForce⟩ nd2 (s.1 0)).cZ
      with att := (0 : ℚ) } = _
    rw [hcZ]
  have hzx4 : ZB kq 1 ({ (s.1 0).cX with att := (0 : ℚ) }) := hzx
  have hzy4 : ZB 0 0 ({ (s.1 0).cY with att := (0 : ℚ) }) := hzy
  have hzz4 : ZB 0 0 ({ (s.1 0).cZ with att := (0 : ℚ) }) := hzz
  have ZX := zb_nodeUpd nd kq 1 _ hzx4 rfl
  have ZY := zb_nodeUpd nd 0 0 _ hzy4 rfl
  have ZZ := zb_nodeUpd nd 0 0 _ hzz4 rfl
  have hE : (nodePass ⟨1, dtq, t2, 0, false, zeroForce⟩ nd s).1 0 =
      nodeUpdP nd (copyAtP (setAcc
        (predictPosP ⟨1, dtq, t2, 0, false, zeroForce⟩ nd (s.1 0)) (0, 0, 0))) := by
    unfold nodePass
    dsimp only [zeroForce]
    simp only [Bool.false_eq_true, if_false, ite_false]
    unfold mapN
    simp only [Nat.zero_lt_one, if_true, ite_true, hdsa nd, hdcp nd]
  have hpce : (nodePass ⟨1, dtq, t2, 0, false, zeroForce⟩ nd s).2 = s.2 := by
    have Z7X := zb_nodeUpd 7 kq 1 _ hzx4 rfl
    have Z7Y := zb_nodeUpd 7 0 0 _ hzy4 rfl
    have Z7Z := zb_nodeUpd 7 0 0 _ hzz4 rfl
    unfold nodePass
    dsimp only [zeroForce]
    by_cases h7 : nd = 7
    · simp only [Bool.false_eq_true, if_false, ite_false, h7, if_pos rfl]
      rw [show List.range 1 = [0] from rfl]
      simp only [List.foldl]
      unfold mapN
      simp only [Nat.zero_lt_one, if_true, ite_true, hdsa 7, hdcp 7]
      unfold pceParticleOrdered
      rw [hq4X 7, hq4Y 7, hq4Z 7, Z7X.2.2, Z7Y.2.2, Z7Z.2.2]
      simp [pceStep]
    · simp only [Bool.false_eq_true, if_false, ite_false, h7]
  refine ⟨⟨?_, ?_, ?_, ?_⟩, hpce, ?_, ?_, ?_, ?_, ?_, ?_⟩
  · rw [hE]
    exact hdcp nd
  · rw [hE]
    show ZB kq 1 (nodeUpdBlk nd (copyAtP (setAcc
      (predictPosP ⟨1, dtq, t2, 0, false, zeroForce⟩ nd (s.1 0)) (0, 0, 0))).cX).1
    rw [hq4X nd]
    exact ZX.1
  · rw [hE]
    show ZB 0 0 (nodeUpdBlk nd (copyAtP (setAcc
      (predictPosP ⟨1, dtq, t2, 0, false, zeroForce⟩ nd (s.1 0)) (0, 0, 0))).cY).1
    rw [hq4Y nd]
    exact ZY.1
  · rw [hE]
    show ZB 0 0 (nodeUpdBlk nd (copyAtP (setAcc
      (predictPosP ⟨1, dtq, t2, 0, false, zeroForce⟩ nd (s.1 0)) (0, 0, 0))).cZ).1
    rw [hq4Z nd]
    exact ZZ.1
  · rw [hE]
    show (nodeUpdBlk nd (copyAtP (setAcc
      (predictPosP ⟨1, dtq, t2, 0, false, zeroForce⟩ nd (s.1 0)) (0, 0, 0))).cX).1.att = 0
    rw [hq4X nd]
    exact ZX.2.1
  · rw [hE]
    show (nodeUpdBlk nd (copyAtP (setAcc
      (predictPosP ⟨1, dtq, t2, 0, false, zeroForce⟩ nd (s.1 0)) (0, 0, 0))).cY).1.att = 0
    rw [hq4Y nd]
    exact ZY.2.1
  · rw [hE]
    show (nodeUpdBlk nd (copyAtP (setAcc
      (predictPosP ⟨1, dtq, t2, 0, false, zeroForce⟩ nd (s.1 0)) (0, 0, 0))).cZ).1.att = 0
    rw [hq4Z nd]
    exact ZZ.2.1
  · rw [hE]
    rfl
  · rw [hE]
    rfl
  · rw [hE]
    rfl

/-- Helper: one whole corrector iteration of the free-drift run keeps the
mid-loop zero shape, reports a zero convergence metric, and leaves the stored
accelerations (`at` and `ax/ay/az`) zero. -/
theorem drift_iterBody (dtq t2 : ℚ) (force : Force) (hf : force = zeroForce)
    (kq : ℚ) (ps : ℕ → Particle) (hm : MidInv kq ps) :
    MidInv kq (iterBody ⟨1, dtq, t2, 0, false, force⟩ ps).1 ∧
    (iterBody ⟨1, dtq, t2, 0, false, force⟩ ps).2 = 0 ∧
    ((iterBody ⟨1, dtq, t2, 0, false, force⟩ ps).1 0).cX.att = 0 ∧
    ((iterBody ⟨1, dtq, t2, 0, false, force⟩ ps).1 0).cY.att = 0 ∧
    ((iterBody ⟨1, dtq, t2, 0, false, force⟩ ps).1 0).cZ.att = 0 ∧
    ((iterBody ⟨1, dtq, t2, 0, false, force⟩ ps).1 0).ax = 0 ∧
    ((iterBody ⟨1, dtq, t2, 0, false, force⟩ ps).1 0).ay = 0 ∧
    ((iterBody ⟨1, dtq, t2, 0, false, force⟩ ps).1 0).az = 0 := by
  subst hf
  have h1 := drift_nodePass 1 dtq t2 zeroForce kq (ps, 0) 1 rfl rfl hm
  have h2 := drift_nodePass 1 dtq t2 zeroForce kq _ 2 rfl rfl h1.1
  have h3 := drift_nodePass 1 dtq t2 zeroForce kq _ 3 rfl rfl h2.1
  have h4 := drift_nodePass 1 dtq t2 zeroForce kq _ 4 rfl rfl h3.1
  have h5 := drift_nodePass 1 dtq t2 zeroForce kq _ 5 rfl rfl h4.1
  have h6 := drift_nodePass 1 dtq t2 zeroForce kq _ 6 rfl rfl h5.1
  have h7 := drift_nodePass 1 dtq t2 zeroForce kq _ 7 rfl rfl h6.1
  have hfold : iterBody ⟨1, dtq, t2, 0, false, zeroForce⟩ ps =
      nodePass ⟨1, dtq, t2, 0, false, zeroForce⟩ 7
        (nodePass ⟨1, dtq, t2, 0, false, zeroForce⟩ 6
          (nodePass ⟨1, dtq, t2, 0, false, zeroForce⟩ 5
            (nodePass ⟨1, dtq, t2, 0, false, zeroForce⟩ 4
              (nodePass ⟨1, dtq, t2, 0, false, zeroForce⟩ 3
                (nodePass ⟨1, dtq, t2, 0, false, zeroForce⟩ 2
                  (nodePass ⟨1, dtq, t2, 0, false, zeroForce⟩ 1 (ps, 0))))))) := rfl
  rw [hfold]
  refine ⟨h7.1, ?_, h7.2.2.1, h7.2.2.2.1, h7.2.2.2.2.1, h7.2.2.2.2.2.1,
    h7.2.2.2.2.2.2.1, h7.2.2.2.2.2.2.2⟩
  rw [h7.2.1, h6.2.1, h5.2.1, h4.2.1, h3.2.1, h2.2.1, h1.2.1]

/-- Helper: the preparatory phases of a free-drift step (warm start, capture,
initial `g`) produce the mid-loop zero shape: all `b` are zeroed by the warm
start, capture records position `(k,0,0)`, velocity `(1,0,0)` and zero
acceleration, the initial `g` of zero `b` is zero, and the compensated
residuals are carried over unchanged. -/
theorem drift_prep (dtq : ℚ) (st : IState) (k : ℕ) (hD : DriftInv k st) :
    MidInv (k : ℚ) (prepParticles dtq st) := by
  obtain ⟨hn, -, -, -, -, -, -, hde, hx, hy, hz, hvx, hvy, hvz, hax, hay, haz,
    hcsxX, hcsvX, hcsxY, hcsvY, hcsxZ, hcsvZ⟩ := hD
  have hp : prepParticles dtq st 0 = initGP (captureP (warmStartP dtq (st.particles 0))) := by
    unfold prepParticles mapN
    simp only [hn, Nat.zero_lt_one, if_true, ite_true]
  unfold MidInv ZB
  rw [hp]
  unfold initGP initGBlk captureP warmStartP
  dsimp only
  split <;>
    simp [warmStartBlk, coldStartBlk, hde, hx, hy, hz, hvx, hvy, hvz, hax, hay, haz,
      hcsxX, hcsvX, hcsxY, hcsvY, hcsxZ, hcsvZ]

/-- Helper: the predictor-corrector loop of a free-drift step converges after
exactly one iteration (the metric of the first iteration is `0 < 1e-16`), so
the 12-iteration branch is never taken and the loop-final store keeps the
mid-loop zero shape with zero stored accelerations. -/
theorem drift_loopRun (dtq : ℚ) (st : IState) (k : ℕ) (hD : DriftInv k st) :
    (loopRun zeroForce dtq st).2.2 = false ∧
    MidInv (k : ℚ) (loopRun zeroForce dtq st).2.1 ∧
    ((loopRun zeroForce dtq st).2.1 0).cX.att = 0 ∧
    ((loopRun zeroForce dtq st).2.1 0).cY.att = 0 ∧
    ((loopRun zeroForce dtq st).2.1 0).cZ.att = 0 ∧
    ((loopRun zeroForce dtq st).2.1 0).ax = 0 ∧
    ((loopRun zeroForce dtq st).2.1 0).ay = 0 ∧
    ((loopRun zeroForce dtq st).2.1 0).az = 0 := by
  have hn : st.n = 1 := hD.1
  have hadd : st.problem_additional_forces = false := hD.2.2.2.2.1
  have hdeG : st.dtexp = 0 := hD.2.2.2.2.2.1
  have hctx : mkCtx zeroForce dtq st = ⟨1, dtq, st.t, 0, false, zeroForce⟩ := by
    unfold mkCtx
    rw [hn, hadd, hdeG]
    rfl
  have hmid := drift_prep dtq st k hD
  have hib := drift_iterBody dtq st.t zeroForce rfl (k : ℚ) (prepParticles dtq st) hmid
  have h1 : ¬((10 : ℚ) ^ 300 < convergedBound) := by norm_num [convergedBound]
  have h2 : ¬(2 < 0 ∧ (2 : ℚ) ≤ 10 ^ 300) := fun h => absurd h.1 (by omega)
  have h3 : ¬(12 ≤ 0) := by omega
  have h4 : (0 : ℚ) < convergedBound := by norm_num [convergedBound]
  have e1 : loopRun zeroForce dtq st =
      (if (10 ^ 300 : ℚ) < convergedBound then ((0 : ℕ), prepParticles dtq st, false)
       else if 2 < 0 ∧ (2 : ℚ) ≤ 10 ^ 300 then ((0 : ℕ), prepParticles dtq st, false)
       else if 12 ≤ 0 then ((0 : ℕ), prepParticles dtq st, true)
       else pcRun (iterBody (mkCtx zeroForce dtq st)) 12
         (iterBody (mkCtx zeroForce dtq st) (prepParticles dtq st)).2 (10 ^ 300) 1
         (iterBody (mkCtx zeroForce dtq st) (prepParticles dtq st)).1) := rfl
  rw [e1, if_neg h1, if_neg h2, if_neg h3]
  have hpce0 : (iterBody (mkCtx zeroForce dtq st) (prepParticles dtq st)).2 = 0 := by
    rw [hctx]
    exact hib.2.1
  have e2 : pcRun (iterBody (mkCtx zeroForce dtq st)) 12
      (iterBody (mkCtx zeroForce dtq st) (prepParticles dtq st)).2 (10 ^ 300) 1
      (iterBody (mkCtx zeroForce dtq st) (prepParticles dtq st)).1 =
      (if (iterBody (mkCtx zeroForce dtq st) (prepParticles dtq st)).2 < convergedBound then
        ((1 : ℕ), (iterBody (mkCtx zeroForce dtq st) (prepParticles dtq st)).1, false)
       else if 2 < 1 ∧ (10 : ℚ) ^ 300 ≤ (iterBody (mkCtx zeroForce dtq st) (prepParticles dtq st)).2 then
        ((1 : ℕ), (iterBody (mkCtx zeroForce dtq st) (prepParticles dtq st)).1, false)
       else if 12 ≤ 1 then
        ((1 : ℕ), (iterBody (mkCtx zeroForce dtq st) (prepParticles dtq st)).1, true)
       else pcRun (iterBody (mkCtx zeroForce dtq st)) 11
         (iterBody (mkCtx zeroForce dtq st)
           (iterBody (mkCtx zeroForce dtq st) (prepParticles dtq st)).1).2
         (iterBody (mkCtx zeroForce dtq st) (prepParticles dtq st)).2 2
         (iterBody (mkCtx zeroForce dtq st)
           (iterBody (mkCtx zeroForce dtq st) (prepParticles dtq st)).1).1) := rfl
  rw [e2, hpce0, if_pos h4]
  rw [hctx]
  exact ⟨rfl, hib.1, hib.2.2.1, hib.2.2.2.1, hib.2.2.2.2.1, hib.2.2.2.2.2.1,
    hib.2.2.2.2.2.2.1, hib.2.2.2.2.2.2.2⟩

/-- Helper: committing a zero-shaped component advances the captured position
by exactly `v0 * dt` with both compensated residuals exactly zero in exact
arithmetic (`csx = csx1 + (a - (a + csx1)) = 0`), keeps the captured velocity,
and preserves the zero `b`, `g`, `a0` coefficients and the `at` field. -/
theorem commitBlk_drift (dtq x0v v0v : ℚ) (bl : Blk) (hz : ZB x0v v0v bl) :
    ZB (x0v + v0v * dtq) v0v (commitBlk dtq bl) ∧ (commitBlk dtq bl).att = bl.att := by
  obtain ⟨hb0, hb1, hb2, hb3, hb4, hb5, hb6, hg0, hg1, hg2, hg3, hg4, hg5, hg6,
    ha0, hcsx, hcsv, hx0, hv0⟩ := hz
  unfold commitBlk ZB
  dsimp only
  rw [hb0, hb1, hb2, hb3, hb4, hb5, hb6, hg0, hg1, hg2, hg3, hg4, hg5, hg6,
    ha0, hcsx, hcsv, hx0, hv0]
  norm_num

/-- Helper: the step controller on a particle whose `b6` and `at` vanish on
all three axes computes `errork_max = 0`, which is not normal, and therefore
falls back to writing `dtexp = 0` while leaving every other field alone. -/
theorem controllerP_drift (lg : LgOracle) (dtq : ℚ) (p : Particle)
    (hbX : p.cX.b6 = 0) (haX : p.cX.att = 0)
    (hbY : p.cY.b6 = 0) (haY : p.cY.att = 0)
    (hbZ : p.cZ.b6 = 0) (haZ : p.cZ.att = 0) :
    controllerP lg dtq p = { p with dtexp := 0 } := by
  unfold controllerP axisStep
  rw [hbX, haX, hbY, haY, hbZ, haZ]
  simp

/-- Helper: the sub-step advance from global class `0`: time always moves to
`t + dt` (the rewind branch needs `dtexp + 1 <= 0`, impossible from class
`0`), the class becomes `dtexp_min`, the level-0 sub-index advances modulo 8,
and the additional-forces flag is untouched. -/
theorem advance_class0 (s : IState) (h0 : s.dtexp = 0) (hs : s.dtexp_substep 0 ≤ 7) :
    (advancePhase s).t = s.t + dtAtEntry s ∧
    (advancePhase s).dtexp = s.dtexp_min ∧
    (advancePhase s).dtexp_substep 0 = (s.dtexp_substep 0 + 1) % 8 ∧
    (advancePhase s).problem_additional_forces = s.problem_additional_forces := by
  have hlvl : (-s.dtexp).toNat = 0 := by rw [h0]; rfl
  have hgt : s.dtexp + 1 > 0 := by omega
  refine ⟨?_, ?_, ?_, ?_⟩ <;>
    (unfold advancePhase
     dsimp only
     rw [hlvl]
     by_cases hw : s.dtexp_substep 0 + 1 = 8 <;> simp [hw, hgt] <;> omega)

/-- Helper: one whole step of the free-drift scenario preserves the drift
invariant, advancing the position and the simulation time by exactly `1`. -/
theorem drift_step (k : ℕ) (st : IState) (hD : DriftInv k st) :
    DriftInv (k + 1) (freeDriftStep st) := by
  have hL := drift_loopRun 1 st k hD
  obtain ⟨hn, ht, heps, hmax, hadd, hdeG, hsub, hde, hx, hy, hz, hvx, hvy, hvz,
    hax2, hay2, haz2, hcx1, hcx2, hcy1, hcy2, hcz1, hcz2⟩ := hD
  obtain ⟨hflagL, hMid, hattX, hattY, hattZ, haxL, hayL, hazL⟩ := hL
  obtain ⟨hLd, hLzx, hLzy, hLzz⟩ := hMid
  have hdt : dtAtEntry st = 1 := by
    unfold dtAtEntry dtProduct
    rw [hdeG, hmax]
    rfl
  have hepos : (0 : ℚ) < st.integrator_epsilon := by rw [heps]; norm_num
  have hCX := commitBlk_drift 1 (k : ℚ) 1 _ hLzx
  have hCY := commitBlk_drift 1 0 0 _ hLzy
  have hCZ := commitBlk_drift 1 0 0 _ hLzz
  have hi0 : 0 < st.n := by omega
  have hpe := step_particles_eq zeroForce zeroLg st 0 hi0
  rw [hdt] at hpe
  dsimp only at hpe
  rw [hdeG] at hpe
  simp only [neg_zero, Int.toNat_zero] at hpe
  rw [if_pos hepos] at hpe
  have hq_d : (commitP 0 1 st.t 0 (st.dtexp_substep 0)
      ((loopRun zeroForce 1 st).2.1 0)).dtexp = 0 := by
    rw [commitP_dtexp]; exact hLd
  rw [if_pos hq_d] at hpe
  have hcc : ∀ p : Particle, p.dtexp = (0 : ℤ) →
      (commitP 0 1 st.t 0 (st.dtexp_substep 0) p).cX = commitBlk 1 p.cX ∧
      (commitP 0 1 st.t 0 (st.dtexp_substep 0) p).cY = commitBlk 1 p.cY ∧
      (commitP 0 1 st.t 0 (st.dtexp_substep 0) p).cZ = commitBlk 1 p.cZ ∧
      (commitP 0 1 st.t 0 (st.dtexp_substep 0) p).ax = p.ax ∧
      (commitP 0 1 st.t 0 (st.dtexp_substep 0) p).ay = p.ay ∧
      (commitP 0 1 st.t 0 (st.dtexp_substep 0) p).az = p.az := by
    intro p hp
    unfold commitP cachePast
    rw [if_pos hp]
    exact ⟨rfl, rfl, rfl, rfl, rfl, rfl⟩
  obtain ⟨hqcX, hqcY, hqcZ, hqax, hqay, hqaz⟩ := hcc _ hLd
  have hcomm := commitP_in_class 0 1 st.t 0 (st.dtexp_substep 0) _ hLd
  have hb6X : (commitP 0 1 st.t 0 (st.dtexp_substep 0)
      ((loopRun zeroForce 1 st).2.1 0)).cX.b6 = 0 := by
    rw [hqcX]; exact hCX.1.2.2.2.2.2.2.1
  have hatX : (commitP 0 1 st.t 0 (st.dtexp_substep 0)
      ((loopRun zeroForce 1 st).2.1 0)).cX.att = 0 := by
    rw [hqcX, hCX.2]; exact hattX
  have hb6Y : (commitP 0 1 st.t 0 (st.dtexp_substep 0)
      ((loopRun zeroForce 1 st).2.1 0)).cY.b6 = 0 := by
    rw [hqcY]; exact hCY.1.2.2.2.2.2.2.1
  have hatY : (commitP 0 1 st.t 0 (st.dtexp_substep 0)
      ((loopRun zeroForce 1 st).2.1 0)).cY.att = 0 := by
    rw [hqcY, hCY.2]; exact hattY
  have hb6Z : (commitP 0 1 st.t 0 (st.dtexp_substep 0)
      ((loopRun zeroForce 1 st).2.1 0)).cZ.b6 = 0 := by
    rw [hqcZ]; exact hCZ.1.2.2.2.2.2.2.1
  have hatZ : (commitP 0 1 st.t 0 (st.dtexp_substep 0)
      ((loopRun zeroForce 1 st).2.1 0)).cZ.att = 0 := by
    rw [hqcZ, hCZ.2]; exact hattZ
  rw [controllerP_drift zeroLg 1 _ hb6X hatX hb6Y hatY hb6Z hatZ] at hpe
  have hstate : (integrator_ias15_step zeroForce zeroLg st).state = advancePhase { st with
      particles := postControllerParticles zeroForce zeroLg (dtAtEntry st) st
      dtexp_min := stepDtexpMin zeroForce zeroLg (dtAtEntry st) st
      integrator_iterations_max_exceeded := st.integrator_iterations_max_exceeded +
        (if (loopRun zeroForce (dtAtEntry st) st).2.2 then 1 else 0) } := rfl
  rw [hdt] at hstate
  have hpost0 : postControllerParticles zeroForce zeroLg 1 st 0 =
      { commitP 0 1 st.t 0 (st.dtexp_substep 0)
          ((loopRun zeroForce 1 st).2.1 0) with dtexp := (0 : ℤ) } := by
    have h2 := hpe
    rw [hstate, advancePhase_particles] at h2
    exact h2
  have hmin1 : ∀ ps : ℕ → Particle,
      dtexpMinOf 1 ps =
        if (ps 0).dtexp < 0 ∧ isnormalZ (ps 0).dtexp then (ps 0).dtexp else 0 :=
    fun _ => rfl
  have hmin : stepDtexpMin zeroForce zeroLg 1 st = 0 := by
    unfold stepDtexpMin
    rw [hn, hmin1, hpost0]
    norm_num
  have hA := advance_class0
    { st with
      particles := postControllerParticles zeroForce zeroLg 1 st
      dtexp_min := stepDtexpMin zeroForce zeroLg 1 st
      integrator_iterations_max_exceeded := st.integrator_iterations_max_exceeded +
        (if (loopRun zeroForce 1 st).2.2 then 1 else 0) }
    hdeG (by show st.dtexp_substep 0 ≤ 7; omega)
  have hcast : ((k + 1 : ℕ) : ℚ) = (k : ℚ) + 1 * 1 := by push_cast; ring
  unfold DriftInv
  unfold freeDriftStep stepState
  refine ⟨?_, ?_, ?_, ?_, ?_, ?_, ?_, ?_, ?_, ?_, ?_, ?_, ?_, ?_, ?_, ?_, ?_, ?_, ?_, ?_, ?_, ?_, ?_⟩
  · rw [(step_tunables zeroForce zeroLg st).2.2.2]; exact hn
  · rw [hstate, hA.1]
    show st.t + dtAtEntry st = _
    rw [ht, hdt]
    push_cast
    ring
  · rw [(step_tunables zeroForce zeroLg st).1]; exact heps
  · rw [(step_tunables zeroForce zeroLg st).2.2.1]; exact hmax
  · rw [hstate, hA.2.2.2]; exact hadd
  · rw [hstate, hA.2.1]
    exact hmin
  · rw [hstate, hA.2.2.1]
    show (st.dtexp_substep 0 + 1) % 8 = _
    omega
  · rw [hpe]
  · rw [hpe]
    dsimp only
    rw [hcomm.2.2.1]
    have := hCX.1.2.2.2.2.2.2.2.2.2.2.2.2.2.2.2.2.2.1
    rw [this, hcast]
  · rw [hpe]
    dsimp only
    rw [hcomm.2.2.2.1]
    have := hCY.1.2.2.2.2.2.2.2.2.2.2.2.2.2.2.2.2.2.1
    rw [this]
    norm_num
  · rw [hpe]
    dsimp only
    rw [hcomm.2.2.2.2.1]
    have := hCZ.1.2.2.2.2.2.2.2.2.2.2.2.2.2.2.2.2.2.1
    rw [this]
    norm_num
  · rw [hpe]
    dsimp only
    rw [hcomm.2.2.2.2.2.1]
    exact hCX.1.2.2.2.2.2.2.2.2.2.2.2.2.2.2.2.2.2.2
  · rw [hpe]
    dsimp only
    rw [hcomm.2.2.2.2.2.2.1]
    have := hCY.1.2.2.2.2.2.2.2.2.2.2.2.2.2.2.2.2.2.2
    rw [this]
  · rw [hpe]
    dsimp only
    rw [hcomm.2.2.2.2.2.2.2]
    have := hCZ.1.2.2.2.2.2.2.2.2.2.2.2.2.2.2.2.2.2.2
    rw [this]
  · rw [hpe]
    dsimp only
    rw [hqax]
    exact haxL
  · rw [hpe]
    dsimp only
    rw [hqay]
    exact hayL
  · rw [hpe]
    dsimp only
    rw [hqaz]
    exact hazL
  · rw [hpe]
    dsimp only
    rw [hqcX]
    exact hCX.1.2.2.2.2.2.2.2.2.2.2.2.2.2.2.2.1
  · rw [hpe]
    dsimp only
    rw [hqcX]
    exact hCX.1.2.2.2.2.2.2.2.2.2.2.2.2.2.2.2.2.1
  · rw [hpe]
    dsimp only
    rw [hqcY]
    exact hCY.1.2.2.2.2.2.2.2.2.2.2.2.2.2.2.2.1
  · rw [hpe]
    dsimp only
    rw [hqcY]
    exact hCY.1.2.2.2.2.2.2.2.2.2.2.2.2.2.2.2.2.1
  · rw [hpe]
    dsimp only
    rw [hqcZ]
    exact hCZ.1.2.2.2.2.2.2.2.2.2.2.2.2.2.2.2.1
  · rw [hpe]
    dsimp only
    rw [hqcZ]
    exact hCZ.1.2.2.2.2.2.2.2.2.2.2.2.2.2.2.2.2.1

/-- Helper: the drift invariant holds at the initial free-drift state. -/
theorem drift_base : DriftInv 0 freeDriftInit := by
  unfold DriftInv freeDriftInit
  norm_num

/-- Helper: the drift invariant holds after any number of free-drift steps. -/
theorem drift_invariant (k : ℕ) : DriftInv k (freeDriftStep^[k] freeDriftInit) := by
  induction k with
  | zero => exact drift_base
  | succ k ih =>
    rw [Function.iterate_succ_apply']
    exact drift_step k _ ih

/-- C8: free drift is exact: one particle with zero force kernel, velocity
`(1,0,0)` and `integrator_max_dt = 1` reaches exactly `(100,0,0)` after 100
calls of the step routine, with the velocity unchanged and every
compensated-summation residual (`csx`, `csv` of all three components) exactly
zero. -/
theorem free_drift_exact :
    ((freeDriftStep^[100] freeDriftInit).particles 0).x = 100 ∧
    ((freeDriftStep^[100] freeDriftInit).particles 0).y = 0 ∧
    ((freeDriftStep^[100] freeDriftInit).particles 0).z = 0 ∧
    ((freeDriftStep^[100] freeDriftInit).particles 0).vx = 1 ∧
    ((freeDriftStep^[100] freeDriftInit).particles 0).vy = 0 ∧
    ((freeDriftStep^[100] freeDriftInit).particles 0).vz = 0 ∧
    ((freeDriftStep^[100] freeDriftInit).particles 0).cX.csx = 0 ∧
    ((freeDriftStep^[100] freeDriftInit).particles 0).cX.csv = 0 ∧
    ((freeDriftStep^[100] freeDriftInit).particles 0).cY.csx = 0 ∧
    ((freeDriftStep^[100] freeDriftInit).particles 0).cY.csv = 0 ∧
    ((freeDriftStep^[100] freeDriftInit).particles 0).cZ.csx = 0 ∧
    ((freeDriftStep^[100] freeDriftInit).particles 0).cZ.csv = 0 := by
  obtain ⟨-, -, -, -, -, -, -, -, hx, hy, hz, hvx, hvy, hvz, -, -, -,
    hcx1, hcx2, hcy1, hcy2, hcz1, hcz2⟩ := drift_invariant 100
  refine ⟨?_, hy, hz, hvx, hvy, hvz, hcx1, hcx2, hcy1, hcy2, hcz1, hcz2⟩
  rw [hx]
  norm_num
